import Mathlib

/-!
Verification of the recipe subsystem of the api-agent repository.

The development shallowly embeds the Python sources under
src/api_agent/recipe/ (store.py, extractor.py, common.py, runner.py):
Python dict/list/scalar values become the inductive type Val, functions
that can raise become Except-valued functions, and the stateful
RecipeStore becomes explicit state passing.  External collaborators
that are not part of the repository sources (the rapidfuzz ratio
functions, the SQL engine, HTTP transports, hashing) are taken as
function parameters.  Regex scanners are implemented with a fuel
argument instantiated with the input length, which is always enough
because every step consumes at least one character.
-/

set_option synthInstance.maxSize 1024
set_option maxRecDepth 8192

namespace ApiAgent

/-- Python JSON-like runtime values (null, bool, int, str, list, dict).
Dicts are insertion-ordered association lists, as CPython dicts are.
Floats are not modelled; no verified property depends on them. -/
inductive Val where
  | vnull : Val
  | vbool (b : Bool) : Val
  | vint (n : Int) : Val
  | vstr (s : String) : Val
  | vlist (xs : List Val) : Val
  | vdict (es : List (String × Val)) : Val

mutual
/-- Boolean structural equality on values (Python == on the embedded
value domain). -/
def vbeq : Val → Val → Bool
  | .vnull, .vnull => true
  | .vbool a, .vbool b => a == b
  | .vint a, .vint b => a == b
  | .vstr a, .vstr b => a == b
  | .vlist xs, .vlist ys => lbeq xs ys
  | .vdict es, .vdict fs => dbeq es fs
  | _, _ => false

/-- Elementwise equality of value lists. -/
def lbeq : List Val → List Val → Bool
  | [], [] => true
  | x :: xs, y :: ys => vbeq x y && lbeq xs ys
  | _, _ => false

/-- Entrywise equality of dict entry lists. -/
def dbeq : List (String × Val) → List (String × Val) → Bool
  | [], [] => true
  | (k, v) :: es, (k', v') :: fs => k == k' && vbeq v v' && dbeq es fs
  | _, _ => false
end

instance : DecidableEq Val := fun a b => by
  have all :
      (∀ a b : Val, vbeq a b = true ↔ a = b) ∧
      (∀ es fs : List (String × Val), dbeq es fs = true ↔ es = fs) ∧
      (∀ xs ys : List Val, lbeq xs ys = true ↔ xs = ys) := by
    apply vbeq.mutual_induct
    case case1 => simp [vbeq]
    case case2 => intro a b; simp [vbeq]
    case case3 => intro a b; simp [vbeq]
    case case4 => intro a b; simp [vbeq]
    case case5 => intro xs ys ih; simp [vbeq, ih]
    case case6 => intro es fs ih; simp [vbeq, ih]
    case case7 =>
      intro t x h1 h2 h3 h4 h5 h6
      cases t <;> cases x <;>
        first
          | exact (h1 rfl rfl).elim
          | exact (h2 _ _ rfl rfl).elim
          | exact (h3 _ _ rfl rfl).elim
          | exact (h4 _ _ rfl rfl).elim
          | exact (h5 _ _ rfl rfl).elim
          | exact (h6 _ _ rfl rfl).elim
          | exact iff_of_false (fun hb => Bool.false_ne_true hb) (fun he => Val.noConfusion he)
    case case8 => simp [lbeq]
    case case9 => intro x xs y ys ih1 ih2; simp [lbeq, ih1, ih2]
    case case10 =>
      intro t x h1 h2
      cases t <;> cases x <;>
        first
          | exact (h1 rfl rfl).elim
          | exact (h2 _ _ _ _ rfl rfl).elim
          | exact iff_of_false (fun hb => Bool.false_ne_true hb) (fun he => List.noConfusion he)
    case case11 => simp [dbeq]
    case case12 =>
      intro k v es k' v' fs ih1 ih2
      simp [dbeq, ih1, ih2, Prod.ext_iff, and_assoc]
    case case13 =>
      intro t x h1 h2
      cases t with
      | nil =>
        cases x with
        | nil => exact (h1 rfl rfl).elim
        | cons hd tl =>
          obtain ⟨k, v⟩ := hd
          exact iff_of_false (fun hb => Bool.false_ne_true hb) (fun he => List.noConfusion he)
      | cons hd tl =>
        obtain ⟨k, v⟩ := hd
        cases x with
        | nil =>
          exact iff_of_false (fun hb => Bool.false_ne_true hb) (fun he => List.noConfusion he)
        | cons hd' tl' =>
          obtain ⟨k', v'⟩ := hd'
          exact (h2 _ _ _ _ _ _ rfl rfl).elim
  exact decidable_of_iff (vbeq a b = true) (all.1 a b)

instance {ε α : Type} [DecidableEq ε] [DecidableEq α] : DecidableEq (Except ε α) := by
  intro a b
  cases a <;> cases b
  case error.error e e' => exact decidable_of_iff (e = e') (by simp)
  case ok.ok v v' => exact decidable_of_iff (v = v') (by simp)
  all_goals exact .isFalse (by intro h; cases h)

/-- Python dict lookup d.get(k): the binding for the key (keys are unique
in dicts produced by the embedded code, so first binding). -/
def pyGet {α β : Type} [DecidableEq α] : List (α × β) → α → Option β
  | [], _ => none
  | (k', v) :: rest, k => if k' = k then some v else pyGet rest k

/-- Python dict assignment d[k] = v: replaces the existing binding in place,
otherwise appends (CPython insertion-order semantics). -/
def pySet {α β : Type} [DecidableEq α] : List (α × β) → α → β → List (α × β)
  | [], k, v => [(k, v)]
  | (k', v') :: rest, k, v =>
      if k' = k then (k, v) :: rest else (k', v') :: pySet rest k v

/-- Python d.pop(k, None): the removed value (if any) and the remaining dict. -/
def pyPop {α β : Type} [DecidableEq α] : List (α × β) → α → Option β × List (α × β)
  | [], _ => (none, [])
  | (k', v') :: rest, k =>
      if k' = k then (some v', rest)
      else
        let (r, rest') := pyPop rest k
        (r, (k', v') :: rest')

/-- Membership test k in d for Python dicts. -/
def pyHasKey {α β : Type} [DecidableEq α] (es : List (α × β)) (k : α) : Bool :=
  (pyGet es k).isSome

/-- Whitespace characters matched by the regex whitespace class (ASCII). -/
def isPyWs (c : Char) : Bool :=
  c = ' ' || c = '\t' || c = '\n' || c = '\x0d' || c = '\x0b' || c = '\x0c'

/-- Python str.strip(): drop leading and trailing whitespace. -/
def stripChars (cs : List Char) : List Char :=
  ((cs.dropWhile isPyWs).reverse.dropWhile isPyWs).reverse

/-- Single pass replacing every maximal whitespace run by one space; the
flag records whether the previous character was inside a run.  This is the
regex substitution of one or more whitespace characters by one space. -/
def collapseWsAux : List Char → Bool → List Char
  | [], _ => []
  | c :: rest, inRun =>
      if isPyWs c then
        if inRun then collapseWsAux rest true
        else ' ' :: collapseWsAux rest true
      else c :: collapseWsAux rest false

/-- Whitespace-run collapse starting outside a run. -/
def collapseWs (cs : List Char) : List Char :=
  collapseWsAux cs false

/-- Embeds store.normalize_ws: collapse whitespace runs, then strip. -/
def normalize_ws (text : String) : String :=
  String.mk (stripChars (collapseWs text.data))

/-- Embeds store._normalize_question: strip, lowercase, collapse whitespace. -/
def normalizeQuestion (q : String) : String :=
  String.mk (collapseWs ((stripChars q.data).map Char.toLower))

/-- Character class of the token regex: lowercase letters and digits. -/
def isTokChar (c : Char) : Bool :=
  ('a' ≤ c && c ≤ 'z') || ('0' ≤ c && c ≤ '9')

/-- Maximal token-character runs of a character list (re.findall on the
normalized question); acc is the current run, reversed. -/
def tokenRunsAux : List Char → List Char → List String
  | [], acc => if acc.isEmpty then [] else [String.mk acc.reverse]
  | c :: rest, acc =>
      if isTokChar c then tokenRunsAux rest (c :: acc)
      else if acc.isEmpty then tokenRunsAux rest []
      else String.mk acc.reverse :: tokenRunsAux rest []

/-- Embeds store._tokens: the set of lowercase alphanumeric runs of the
normalized question, as a duplicate-free list. -/
def tokensOf (q : String) : List String :=
  (tokenRunsAux (normalizeQuestion q).data []).dedup

mutual
/-- Python repr of a value (scalar and container cases used by the code;
quote escaping inside strings does not occur in the verified inputs). -/
def pyRepr : Val → String
  | .vnull => "None"
  | .vbool true => "True"
  | .vbool false => "False"
  | .vint n => toString n
  | .vstr s => "'" ++ s ++ "'"
  | .vlist xs => "[" ++ pyReprList xs ++ "]"
  | .vdict es => "\x7b" ++ pyReprDict es ++ "\x7d"

/-- Comma-joined reprs of list elements. -/
def pyReprList : List Val → String
  | [] => ""
  | [x] => pyRepr x
  | x :: y :: rest => pyRepr x ++ ", " ++ pyReprList (y :: rest)

/-- Comma-joined reprs of dict entries. -/
def pyReprDict : List (String × Val) → String
  | [] => ""
  | [(k, v)] => "'" ++ k ++ "': " ++ pyRepr v
  | (k, v) :: e :: rest => "'" ++ k ++ "': " ++ pyRepr v ++ ", " ++ pyReprDict (e :: rest)
end

/-- Python str(v) of a value at top level: identity on strings, Python
spellings for the other scalars, repr for containers. -/
def pyStrOf : Val → String
  | .vstr s => s
  | .vnull => "None"
  | .vbool true => "True"
  | .vbool false => "False"
  | .vint n => toString n
  | v => pyRepr v

/-- Embeds the local _as_text of store.render_text_template: booleans render
as true/false, None as null, anything else through str(). -/
def asText : Val → String
  | .vbool true => "true"
  | .vbool false => "false"
  | .vnull => "null"
  | v => pyStrOf v

/-- First character class of the placeholder regex identifier. -/
def isIdentStart (c : Char) : Bool :=
  ('a' ≤ c && c ≤ 'z') || ('A' ≤ c && c ≤ 'Z') || c = '_'

/-- Later character class of the placeholder regex identifier. -/
def isIdentChar (c : Char) : Bool :=
  isIdentStart c || ('0' ≤ c && c ≤ '9')

/-- Tries to read an identifier followed by two closing braces at the head
of the input: the body of a placeholder match of _PLACEHOLDER_RE after its
two opening braces.  Returns the identifier and the rest of the input. -/
def matchPlaceholder : List Char → Option (String × List Char)
  | [] => none
  | c :: rest =>
      if isIdentStart c then
        match rest.dropWhile isIdentChar with
        | '}' :: '}' :: rest3 => some (String.mk (c :: rest.takeWhile isIdentChar), rest3)
        | _ => none
      else none

/-- Segments of a free-text template: literal characters and placeholder
references, the decomposition performed by _PLACEHOLDER_RE scanning. -/
inductive TSeg where
  | lit (c : Char) : TSeg
  | ph (name : String) : TSeg
deriving DecidableEq

/-- Left-to-right non-overlapping scan of a template into segments,
mirroring how re.sub and re.findall traverse the input.  Fuel bounds the
number of steps; the input length is always sufficient. -/
def scanTemplateF : Nat → List Char → List TSeg
  | 0, cs => cs.map .lit
  | _ + 1, [] => []
  | fuel + 1, '{' :: '{' :: rest =>
      match matchPlaceholder rest with
      | some (name, rest2) => .ph name :: scanTemplateF fuel rest2
      | none => .lit '{' :: scanTemplateF fuel ('{' :: rest)
  | fuel + 1, c :: rest => .lit c :: scanTemplateF fuel rest

/-- Segment decomposition of a template string. -/
def scanTemplate (s : String) : List TSeg :=
  scanTemplateF s.data.length s.data

/-- Embeds _PLACEHOLDER_RE.findall: the placeholder names of a template in
scan order. -/
def placeholderNames (s : String) : List String :=
  (scanTemplate s).filterMap fun seg =>
    match seg with
    | .ph n => some n
    | .lit _ => none

/-- One-pass rendering of a template character list, the fused translation
of re.sub with the raising repl callback of store.render_text_template:
the first placeholder whose name is absent from params raises KeyError. -/
def renderTextF (params : List (String × Val)) : Nat → List Char → Except String (List Char)
  | 0, cs => .ok cs
  | _ + 1, [] => .ok []
  | fuel + 1, '{' :: '{' :: rest =>
      match matchPlaceholder rest with
      | some (name, rest2) =>
          match pyGet params name with
          | none => .error ("missing param: " ++ name)
          | some v => do
              let t ← renderTextF params fuel rest2
              .ok ((asText v).data ++ t)
      | none => do
          let t ← renderTextF params fuel ('{' :: rest)
          .ok ('{' :: t)
  | fuel + 1, c :: rest => do
      let t ← renderTextF params fuel rest
      .ok (c :: t)

/-- Embeds store.render_text_template over Lean strings. -/
def render_text_template (template : String) (params : List (String × Val)) :
    Except String String :=
  (renderTextF params template.data.length template.data).map String.mk

/-- Specification-side renderer over the segment decomposition: every
placeholder occurrence is replaced by the type-aware text form of its
parameter value; a missing name is an error. -/
def renderSegs (params : List (String × Val)) : List TSeg → Except String (List Char)
  | [] => .ok []
  | .lit c :: rest => (renderSegs params rest).map (c :: ·)
  | .ph n :: rest =>
      match pyGet params n with
      | none => .error ("missing param: " ++ n)
      | some v => (renderSegs params rest).map ((asText v).data ++ ·)

mutual
/-- Embeds store.render_param_refs on values: a dict whose key set is
exactly the reference key with a string value is replaced by the looked-up
parameter (KeyError when absent); other dicts and lists are walked
recursively; scalars pass through. -/
def render_param_refs (params : List (String × Val)) : Val → Except String Val
  | .vdict es =>
      if es.map Prod.fst = ["$param"] then
        match pyGet es "$param" with
        | some (.vstr p) =>
            match pyGet params p with
            | none => .error ("missing param: " ++ p)
            | some v => .ok v
        | _ => do
            let es' ← renderRefsDict params es
            .ok (.vdict es')
      else do
        let es' ← renderRefsDict params es
        .ok (.vdict es')
  | .vlist xs => do
      let xs' ← renderRefsList params xs
      .ok (.vlist xs')
  | v => .ok v

/-- Recursive walk of render_param_refs over list elements. -/
def renderRefsList (params : List (String × Val)) : List Val → Except String (List Val)
  | [] => .ok []
  | x :: rest => do
      let x' ← render_param_refs params x
      let rest' ← renderRefsList params rest
      .ok (x' :: rest')

/-- Recursive walk of render_param_refs over dict entries. -/
def renderRefsDict (params : List (String × Val)) :
    List (String × Val) → Except String (List (String × Val))
  | [] => .ok []
  | (k, v) :: rest => do
      let v' ← render_param_refs params v
      let rest' ← renderRefsDict params rest
      .ok ((k, v') :: rest')
end

/-- Dict lookup on a value: get on a dict value, none otherwise (the code
only calls get on dicts). -/
def vGet : Val → String → Option Val
  | .vdict es, k => pyGet es k
  | _, _ => none

/-- Dict lookup with default. -/
def vGetD (v : Val) (k : String) (d : Val) : Val :=
  (vGet v k).getD d

/-- Python truthiness of an optional value (absent and None are falsy). -/
def pyTruthy : Option Val → Bool
  | none => false
  | some .vnull => false
  | some (.vbool b) => b
  | some (.vint n) => n != 0
  | some (.vstr s) => s ≠ ""
  | some (.vlist xs) => !xs.isEmpty
  | some (.vdict es) => !es.isEmpty

/-- ASCII uppercase of a string (Python str.upper on the inputs used). -/
def strUpper (s : String) : String :=
  String.mk (s.data.map Char.toUpper)

/-- Repeated spaces for JSON indentation. -/
def nspaces : Nat → String
  | 0 => ""
  | n + 1 => " " ++ nspaces n

mutual
/-- Embeds json.dumps(v, indent=2) at nesting level lvl (string escaping
is not modelled; the dumped payloads contain none). -/
def jsonVal : Nat → Val → String
  | _, .vnull => "null"
  | _, .vbool true => "true"
  | _, .vbool false => "false"
  | _, .vint n => toString n
  | _, .vstr s => "\"" ++ s ++ "\""
  | _, .vlist [] => "[]"
  | lvl, .vlist (x :: xs) => "[\n" ++ jsonList lvl (x :: xs) ++ "\n" ++ nspaces (lvl * 2) ++ "]"
  | _, .vdict [] => "\x7b\x7d"
  | lvl, .vdict (e :: es) =>
      "\x7b\n" ++ jsonDict lvl (e :: es) ++ "\n" ++ nspaces (lvl * 2) ++ "\x7d"

/-- Lines of a dumped JSON array. -/
def jsonList : Nat → List Val → String
  | _, [] => ""
  | lvl, [x] => nspaces ((lvl + 1) * 2) ++ jsonVal (lvl + 1) x
  | lvl, x :: y :: rest =>
      nspaces ((lvl + 1) * 2) ++ jsonVal (lvl + 1) x ++ ",\n" ++ jsonList lvl (y :: rest)

/-- Lines of a dumped JSON object. -/
def jsonDict : Nat → List (String × Val) → String
  | _, [] => ""
  | lvl, [(k, v)] => nspaces ((lvl + 1) * 2) ++ "\"" ++ k ++ "\": " ++ jsonVal (lvl + 1) v
  | lvl, (k, v) :: e :: rest =>
      nspaces ((lvl + 1) * 2) ++ "\"" ++ k ++ "\": " ++ jsonVal (lvl + 1) v ++ ",\n" ++
        jsonDict lvl (e :: rest)
end

/-- json.dumps with indent 2 at top level. -/
def jsonDumps (v : Val) : String := jsonVal 0 v

/-- Embeds the JSON error payload helper of recipe/common.py. -/
def error_json (msg : String) : String :=
  jsonDumps (.vdict [("success", .vbool false), ("error", .vstr msg)])

/-- One step of the default-collection loop of store.params_with_defaults:
a dict-valued spec entry contributes its default exactly when the key
default is present (explicit null defaults included). -/
def defaultStep (out : List (String × Val)) (kv : String × Val) :
    List (String × Val) :=
  match kv.2 with
  | .vdict sd =>
      match pyGet sd "default" with
      | some d => pySet out kv.1 d
      | none => out
  | _ => out

/-- One assignment of the dict.update overlay. -/
def overlayStep (out : List (String × Val)) (kv : String × Val) :
    List (String × Val) :=
  pySet out kv.1 kv.2

/-- Embeds store.params_with_defaults: collect every declared default
(including explicit null defaults, keyed on key presence), then overlay the
provided values. -/
def params_with_defaults (params_spec provided : List (String × Val)) :
    List (String × Val) :=
  provided.foldl overlayStep (params_spec.foldl defaultStep [])

/-- Python test x is None on a dict lookup result: true both when the key
is absent and when it maps to null. -/
def pyIsNone : Option Val → Bool
  | none => true
  | some .vnull => true
  | some _ => false

/-- First parameter that common.validate_recipe_params reports missing:
a dict-valued spec entry whose default lookup is absent-or-null and whose
name is not provided. -/
def firstMissingRequired (provided : List (String × Val)) :
    List (String × Val) → Option String
  | [] => none
  | (pname, spec) :: rest =>
      match spec with
      | .vdict sd =>
          if pyIsNone (pyGet sd "default") && !(pyHasKey provided pname) then some pname
          else firstMissingRequired provided rest
      | _ => firstMissingRequired provided rest

/-- Embeds common.validate_recipe_params: reports the first missing
required parameter, otherwise merges defaults with provided values. -/
def validate_recipe_params (params_spec provided : List (String × Val)) :
    Option (List (String × Val)) × String :=
  match firstMissingRequired provided params_spec with
  | some pname => (none, error_json ("missing required param: " ++ pname))
  | none => (some (params_with_defaults params_spec provided), "")

/-- Stable insertion of an element after every element that precedes or
equals it. -/
def insertSorted {α : Type} (le : α → α → Bool) (x : α) : List α → List α
  | [] => [x]
  | y :: ys => if le y x then y :: insertSorted le x ys else x :: y :: ys

/-- Stable sort (Python list.sort / sorted): elements are processed in
order and each lands after the elements that compare before-or-equal. -/
def stableSort {α : Type} (le : α → α → Bool) (l : List α) : List α :=
  l.foldl (fun acc x => insertSorted le x acc) []

/-- Python max(n, 1) on naturals, in an if form the kernel evaluates. -/
def pymax1 (n : Nat) : Nat :=
  if 1 ≤ n then n else 1

/-- Python min on rationals, in an if form the kernel evaluates. -/
def qmin (a b : ℚ) : ℚ :=
  if a < b then a else b

/-- Lexicographic code-point comparison of character lists (Python string
comparison). -/
def strLeChars : List Char → List Char → Bool
  | [], _ => true
  | _ :: _, [] => false
  | a :: as, b :: bs => if a = b then strLeChars as bs else decide (a < b)

/-- Python s1 <= s2 on strings. -/
def strLe (a b : String) : Bool :=
  strLeChars a.data b.data

/-- Ascending sort of token strings (Python sorted on a token set). -/
def sortStrings (l : List String) : List String :=
  stableSort strLe l

/-- Space-joined token text (" ".join). -/
def joinTokens (ts : List String) : String :=
  String.intercalate " " ts

/-- Embeds store._similarity.  The rapidfuzz collaborators
fuzz.token_set_ratio and fuzz.partial_token_set_ratio are external to the
repository and are taken as function parameters base and extra; scores are
rationals standing for Python floats. -/
def similarity (base extra : String → String → ℚ) (query signature : String) : ℚ :=
  let q_norm := normalizeQuestion query
  let s_norm := normalizeQuestion signature
  if q_norm = "" || s_norm = "" then 0
  else if q_norm = s_norm then 1
  else
    let q_tokens := tokensOf query
    let s_tokens := tokensOf signature
    if q_tokens.isEmpty || s_tokens.isEmpty then 0
    else
      let q_text := joinTokens (sortStrings q_tokens)
      let s_text := joinTokens (sortStrings s_tokens)
      let overlap : ℚ :=
        ((q_tokens.filter (fun t => s_tokens.contains t)).length : ℚ) /
          ((pymax1 q_tokens.length : Nat) : ℚ)
      let coverage : ℚ :=
        ((s_tokens.filter (fun t => q_tokens.contains t)).length : ℚ) /
          ((pymax1 s_tokens.length : Nat) : ℚ)
      let token_balance := qmin overlap coverage * 100
      (0.55 * base q_text s_text + 0.25 * extra q_text s_text + 0.20 * token_balance) / 100

/-- Embeds extractor._canon_obj composed with dict get: a missing key or an
explicit None normalizes to the empty dict. -/
def canonObj : Option Val → Val
  | none => .vdict []
  | some .vnull => .vdict []
  | some v => v

/-- Embeds extractor._validate_step_graphql over a dict-shaped original
trace step and a dict-shaped recipe step. -/
def validate_step_graphql (orig rstep : List (String × Val))
    (params : List (String × Val)) : Except String Bool :=
  if pyGet rstep "name" ≠ pyGet orig "name" then .ok false
  else
    match pyGet rstep "query_template" with
    | some (.vstr tmpl) => do
        let rendered ← render_text_template tmpl params
        .ok (normalize_ws rendered =
          normalize_ws (pyStrOf ((pyGet orig "query").getD (.vstr ""))))
    | _ => .ok false

/-- Embeds extractor._validate_step_rest: name, case-insensitive method and
path must match, and each of the three structured objects must render to
the original value with absent-or-null normalized to the empty dict. -/
def validate_step_rest (orig rstep : List (String × Val))
    (params : List (String × Val)) : Except String Bool :=
  if pyGet rstep "name" ≠ pyGet orig "name" then .ok false
  else if strUpper (pyStrOf ((pyGet rstep "method").getD (.vstr ""))) ≠
      strUpper (pyStrOf ((pyGet orig "method").getD (.vstr ""))) then .ok false
  else if pyGet rstep "path" ≠ pyGet orig "path" then .ok false
  else do
    let r1 ← render_param_refs params (canonObj (pyGet rstep "path_params"))
    if r1 ≠ canonObj (pyGet orig "path_params") then .ok false
    else do
      let r2 ← render_param_refs params (canonObj (pyGet rstep "query_params"))
      if r2 ≠ canonObj (pyGet orig "query_params") then .ok false
      else do
        let r3 ← render_param_refs params (canonObj (pyGet rstep "body"))
        if r3 ≠ canonObj (pyGet orig "body") then .ok false
        else .ok true

/-- Per-step loop of extractor._validate_equivalence: the kind check and
the per-kind validator run step by step, stopping at the first mismatch. -/
def validateStepsLoop (apiType : String) (params : List (String × Val)) :
    List (List (String × Val)) → List Val → Except String Bool
  | [], _ => .ok true
  | _ :: _, [] => .ok true
  | orig :: os, rec :: rs =>
      match rec with
      | .vdict rd =>
          if pyGet rd "kind" ≠ pyGet orig "kind" then .ok false
          else do
            let ok ← (if apiType = "graphql" then validate_step_graphql orig rd params
                      else validate_step_rest orig rd params)
            if ok then validateStepsLoop apiType params os rs else .ok false
      | _ => .ok false

/-- Per-SQL-step loop of extractor._validate_equivalence. -/
def validateSqlLoop (params : List (String × Val)) :
    List String → List Val → Except String Bool
  | [], _ => .ok true
  | _ :: _, [] => .ok true
  | o :: os, r :: rs =>
      match r with
      | .vstr tmpl => do
          let rendered ← render_text_template tmpl params
          if normalize_ws rendered = normalize_ws o then validateSqlLoop params os rs
          else .ok false
      | _ => .ok false

/-- Embeds extractor._validate_equivalence.  Original trace steps are
dict-shaped (they come from the agent's own execution); original SQL steps
are strings.  Can raise (Except.error) through template rendering when a
referenced parameter has no declared default. -/
def validate_equivalence (apiType : String) (original_steps : List (List (String × Val)))
    (original_sql : List String) (recipe : List (String × Val)) : Except String Bool :=
  let params_spec :=
    match pyGet recipe "params" with
    | some (.vdict ps) => ps
    | _ => []
  let params := params_with_defaults params_spec []
  match pyGet recipe "steps", pyGet recipe "sql_steps" with
  | some (.vlist r_steps), some (.vlist r_sql) =>
      if r_steps.length ≠ original_steps.length || r_sql.length ≠ original_sql.length then
        .ok false
      else do
        let ok ← validateStepsLoop apiType params original_steps r_steps
        if !ok then .ok false
        else validateSqlLoop params original_sql r_sql
  | _, _ => .ok false

mutual
/-- Embeds extractor._find_param_refs: collect the names of every
parameter-reference node in a structured value. -/
def findParamRefs : Val → List String
  | .vdict es =>
      if es.map Prod.fst = ["$param"] then
        match pyGet es "$param" with
        | some (.vstr p) => [p]
        | _ => findParamRefsDict es
      else findParamRefsDict es
  | .vlist xs => findParamRefsList xs
  | _ => []

/-- Reference collection over list elements. -/
def findParamRefsList : List Val → List String
  | [] => []
  | x :: rest => findParamRefs x ++ findParamRefsList rest

/-- Reference collection over dict values. -/
def findParamRefsDict : List (String × Val) → List String
  | [] => []
  | (_, v) :: rest => findParamRefs v ++ findParamRefsDict rest
end

/-- Reference collection on an optional value (None yields nothing, as
_find_param_refs ignores non-containers). -/
def findParamRefsOpt : Option Val → List String
  | none => []
  | some v => findParamRefs v

/-- Python iteration over a value: lists yield elements, strings yield
their characters, dicts yield their keys, scalars raise TypeError. -/
def iterVal : Val → Except String (List Val)
  | .vlist xs => .ok xs
  | .vstr s => .ok (s.data.map fun c => .vstr (String.mk [c]))
  | .vdict es => .ok (es.map fun kv => .vstr kv.1)
  | _ => .error "TypeError: object is not iterable"

/-- Embeds extractor._find_used_params: placeholder names of string SQL
templates plus, per step, graphql query-template placeholders or REST
structured references.  Duplicates are kept; callers compare as sets. -/
def find_used_params (recipe : List (String × Val)) (apiType : String) :
    Except String (List String) := do
  let sqlItems ← iterVal ((pyGet recipe "sql_steps").getD (.vlist []))
  let fromSql := (sqlItems.map fun v =>
    match v with
    | .vstr s => placeholderNames s
    | _ => []).flatten
  let stepItems ← iterVal ((pyGet recipe "steps").getD (.vlist []))
  let fromSteps := (stepItems.map fun st =>
    match st with
    | .vdict sd =>
        if apiType = "graphql" then
          match (pyGet sd "query_template").getD (.vstr "") with
          | .vstr t => placeholderNames t
          | _ => []
        else
          findParamRefsOpt (pyGet sd "path_params") ++
            findParamRefsOpt (pyGet sd "query_params") ++
            findParamRefsOpt (pyGet sd "body")
    | _ => []).flatten
  .ok (fromSql ++ fromSteps)

/-- The tool-name regex of extract_recipe: lowercase letter start, then up
to 39 lowercase alphanumerics or underscores. -/
def validToolName (s : String) : Bool :=
  match s.data with
  | [] => false
  | c :: rest =>
      ('a' ≤ c && c ≤ 'z') && rest.length ≤ 39 &&
        rest.all fun d => ('a' ≤ d && d ≤ 'z') || ('0' ≤ d && d ≤ '9') || d = '_'

/-- The checks of extractor.extract_recipe that follow params
normalization: tool-name check, parameter-usage consistency with pruning,
and equivalence validation. -/
def acceptTail (apiType : String) (steps : List (List (String × Val)))
    (sql_steps : List String) (candidate : List (String × Val)) :
    Except String (Option (List (String × Val))) := do
  match (pyGet candidate "tool_name").getD (.vstr "") with
  | .vstr tn =>
      if tn = "" then return none
      if !(validToolName tn) then return none
      let declaredEntries :=
        match pyGet candidate "params" with
        | some (.vdict ps) => ps
        | _ => []
      let declared := (declaredEntries.map Prod.fst).toFinset
      let usedList ← find_used_params candidate apiType
      let used := usedList.toFinset
      if declared ≠ ∅ && used = ∅ then return none
      let candidate ←
        if declared ≠ used then
          if !(used ⊆ declared : Bool) then return none
          else pure (pySet candidate "params"
            (.vdict (declaredEntries.filter fun kv => usedList.contains kv.1)))
        else pure candidate
      let ok ← validate_equivalence apiType steps sql_steps candidate
      if ok then return (some candidate) else return none
  | _ => return none

/-- Embeds the validation tail of extractor.extract_recipe on a parsed
candidate dict (everything after the LLM call and JSON parse): structure
check and params normalization, then the acceptTail checks.  Returns ok
none when the candidate is rejected, ok (some recipe) when accepted, and
error when validation raises. -/
def accept_candidate (apiType : String) (steps : List (List (String × Val)))
    (sql_steps : List String) (candidate0 : List (String × Val)) :
    Except String (Option (List (String × Val))) := do
  if !(pyHasKey candidate0 "steps") || !(pyHasKey candidate0 "sql_steps") then
    return none
  let candidate :=
    match pyGet candidate0 "params" with
    | some (.vdict _) => candidate0
    | _ => pySet candidate0 "params" (.vdict [])
  acceptTail apiType steps sql_steps candidate

/-- Named in-memory result tables of one recipe execution. -/
abbrev Results := List (String × Val)

/-- An injected API step executor: index, step, params and the shared
result tables go in; success flag, extracted data (None allowed), error
text, optional call record and the updated tables come out.  As in the
runner closures, the executor itself may raise. -/
abbrev StepExec :=
  Nat → Val → List (String × Val) → Results →
    Except String ((Bool × Option Val × String × Option Val) × Results)

/-- The external tabular SQL engine collaborator (execute_sql is not part
of the sources under verification): tables and query text to response
dict. -/
abbrev SqlExec := Results → String → Val

/-- Outcome of the API phase of common.execute_recipe_steps, with the
per-phase state (tables, last-result slot, accumulated call records). -/
inductive ApiPhase where
  | failed (error : String) (results : Results) (lastSlot : Option Val) (items : List Val)
  | finished (results : Results) (lastSlot : Option Val) (items : List Val)

/-- API phase of common.execute_recipe_steps: run steps in order through
the injected executor, stopping at the first failure; truthy call records
accumulate; non-None data overwrites the last-result slot when the slot
context variable is set. -/
def runApiSteps (exec : StepExec) (params : List (String × Val)) :
    List Val → Nat → Results → Option Val → List Val → Except String ApiPhase
  | [], _, results, lastSlot, items => .ok (.finished results lastSlot items.reverse)
  | st :: rest, idx, results, lastSlot, items => do
      let ((ok, dat, err, callRec), results') ← exec idx st params results
      if !ok then .ok (.failed err results' lastSlot items.reverse)
      else
        let items' := if pyTruthy callRec then (callRec.getD .vnull) :: items else items
        let lastSlot' :=
          match dat with
          | some d => (match lastSlot with | none => none | some _ => some d)
          | none => lastSlot
        runApiSteps exec params rest (idx + 1) results' lastSlot' items'

/-- Embeds common._execute_sql_steps: render each template (which raises on
a missing parameter), run it through the SQL collaborator, record the
rendered text, stop at the first unsuccessful response with its dumped
JSON, and write each successful result list into the last-result slot. -/
def execSqlSteps (sqlExec : SqlExec) (params : List (String × Val)) (results : Results) :
    List Val → Option Val → List String →
      Except String ((Bool × List String × String) × Option Val)
  | [], lastSlot, acc => .ok ((true, acc.reverse, ""), lastSlot)
  | st :: rest, lastSlot, acc =>
      match st with
      | .vstr tmpl => do
          let sql ← render_text_template tmpl params
          let res := sqlExec results sql
          let acc' := sql :: acc
          if !(pyTruthy (vGet res "success")) then
            .ok ((false, acc'.reverse, jsonDumps res), lastSlot)
          else
            let lastSlot' :=
              match lastSlot with
              | none => none
              | some _ => some (vGetD res "result" (.vlist []))
            execSqlSteps sqlExec params results rest lastSlot' acc'
      | _ => .ok ((false, acc.reverse, error_json "invalid sql_steps"), lastSlot)

/-- Embeds common.execute_recipe_steps: API phase then SQL phase, first
failure aborts; returns (success, last data, executed sql, error) plus the
final tables, slot and call records. -/
def execute_recipe_steps (exec : StepExec) (sqlExec : SqlExec)
    (recipe : List (String × Val)) (params : List (String × Val))
    (results0 : Results) (lastSlot0 : Option Val) :
    Except String ((Bool × Val × List String × String) × (Results × Option Val × List Val)) := do
  let steps ← iterVal ((pyGet recipe "steps").getD (.vlist []))
  let phase ← runApiSteps exec params steps 0 results0 lastSlot0 []
  match phase with
  | .failed err res ls items => .ok ((false, .vnull, [], err), (res, ls, items))
  | .finished res ls items => do
      let sqlList ← iterVal ((pyGet recipe "sql_steps").getD (.vlist []))
      let ((ok, executed, err), ls') ← execSqlSteps sqlExec params res sqlList ls []
      if !ok then .ok ((false, .vnull, executed, err), (res, ls', items))
      else
        match ls' with
        | some v => .ok ((true, v, executed, ""), (res, ls', items))
        | none => .ok ((true, .vnull, executed, ""), (res, ls', items))

mutual
/-- Compact json.dumps (no indent), used for call-record fields. -/
def jsonCompact : Val → String
  | .vnull => "null"
  | .vbool true => "true"
  | .vbool false => "false"
  | .vint n => toString n
  | .vstr s => "\"" ++ s ++ "\""
  | .vlist xs => "[" ++ jsonCompactList xs ++ "]"
  | .vdict es => "\x7b" ++ jsonCompactDict es ++ "\x7d"

/-- Comma-joined compact dumps of array elements. -/
def jsonCompactList : List Val → String
  | [] => ""
  | [x] => jsonCompact x
  | x :: y :: rest => jsonCompact x ++ ", " ++ jsonCompactList (y :: rest)

/-- Comma-joined compact dumps of object entries. -/
def jsonCompactDict : List (String × Val) → String
  | [] => ""
  | [(k, v)] => "\"" ++ k ++ "\": " ++ jsonCompact v
  | (k, v) :: e :: rest =>
      "\"" ++ k ++ "\": " ++ jsonCompact v ++ ", " ++ jsonCompactDict (e :: rest)
end

/-- The JSON error payload with an arbitrary error value, as produced by
dumping a dict whose error entry need not be a string. -/
def error_json_v (v : Val) : String :=
  jsonDumps (.vdict [("success", .vbool false), ("error", v)])

/-- Python dict.update: fold the new entries into the dict in order. -/
def updateEntries (d new : List (String × Val)) : List (String × Val) :=
  new.foldl (fun acc kv => pySet acc kv.1 kv.2) d

/-- Embeds store.RecipeRecord.  Timestamps are rationals standing for
time.time() floats. -/
structure RecipeRecord where
  recipe_id : String
  api_id : String
  schema_hash : String
  question : String
  question_sig : String
  question_tokens : List String
  recipe : Val
  tool_name : String
  created_at : ℚ
  last_used_at : ℚ
deriving DecidableEq

/-- State of store.RecipeStore: the record table, the per-(api_id,
schema_hash) id buckets, and the LRU order (least recent first), all
insertion-ordered as the Python dict/OrderedDict/set bookkeeping is. -/
structure RecipeStore where
  max_size : Nat
  records : List (String × RecipeRecord)
  by_key : List ((String × String) × List String)
  lru : List String
deriving DecidableEq

/-- Embeds RecipeStore.__init__ with its max(1, max_size) clamp. -/
def mkStore (max_size : Nat) : RecipeStore :=
  { max_size := max 1 max_size, records := [], by_key := [], lru := [] }

/-- Embeds RecipeStore._touch: move the id to the most-recent end. -/
def touchLru (s : RecipeStore) (rid : String) : RecipeStore :=
  { s with lru := s.lru.erase rid ++ [rid] }

/-- Embeds RecipeStore._delete: drop the record and its LRU entry, then
discard the id from its bucket, dropping the bucket when it empties. -/
def deleteRecord (s : RecipeStore) (rid : String) : RecipeStore :=
  let (recOpt, records') := pyPop s.records rid
  let lru' := s.lru.erase rid
  let by_key' :=
    match recOpt with
    | none => s.by_key
    | some rec =>
        let key := (rec.api_id, rec.schema_hash)
        match pyGet s.by_key key with
        | none => s.by_key
        | some ids =>
            if ids.isEmpty then s.by_key
            else
              let ids' := ids.erase rid
              if ids'.isEmpty then (pyPop s.by_key key).2
              else pySet s.by_key key ids'
  { s with records := records', lru := lru', by_key := by_key' }

/-- Eviction loop body with an explicit iteration bound; every iteration
deletes the current LRU head, which shortens the LRU list by one, so the
initial LRU length is always enough fuel. -/
def evictLoop : Nat → RecipeStore → RecipeStore
  | 0, s => s
  | fuel + 1, s =>
      match s.lru with
      | [] => s
      | oldest :: _ =>
          if s.records.length > s.max_size then evictLoop fuel (deleteRecord s oldest)
          else s

/-- Embeds RecipeStore._evict_if_needed: delete LRU-oldest records while
over capacity. -/
def evictIfNeeded (s : RecipeStore) : RecipeStore :=
  evictLoop s.lru.length s

/-- Bucket insertion performed by the defaultdict(set).add in save_recipe. -/
def bkAdd (bk : List ((String × String) × List String)) (key : String × String)
    (rid : String) : List ((String × String) × List String) :=
  match pyGet bk key with
  | none => pySet bk key [rid]
  | some ids => if ids.contains rid then bk else pySet bk key (ids ++ [rid])

/-- The RecipeRecord built by save_recipe. -/
def saveRecordOf (rid : String) (now : ℚ) (api_id schema_hash question : String)
    (recipe : Val) (tool_name : String) : RecipeRecord :=
  { recipe_id := rid, api_id := api_id, schema_hash := schema_hash,
    question := question, question_sig := normalizeQuestion question,
    question_tokens := tokensOf question, recipe := recipe,
    tool_name := tool_name, created_at := now, last_used_at := now }

/-- Embeds RecipeStore.save_recipe.  The fresh uuid and time.time() are
external inputs rid and now; dict(recipe) is the identity in this value
model (aliasing is modelled separately for the copy claims). -/
def save_recipe (s : RecipeStore) (rid : String) (now : ℚ)
    (api_id schema_hash question : String) (recipe : Val) (tool_name : String) :
    String × RecipeStore :=
  let record := saveRecordOf rid now api_id schema_hash question recipe tool_name
  let s1 := { s with records := pySet s.records rid record,
                     by_key := bkAdd s.by_key (api_id, schema_hash) rid }
  let s2 := touchLru s1 rid
  (rid, evictIfNeeded s2)

/-- Embeds RecipeStore.get_recipe: None for unknown ids; otherwise touch
recency at the current time and return the recipe. -/
def get_recipe (s : RecipeStore) (rid : String) (now : ℚ) :
    Option Val × RecipeStore :=
  match pyGet s.records rid with
  | none => (none, s)
  | some rec =>
      let rec' := { rec with last_used_at := now }
      let s1 := { s with records := pySet s.records rid rec' }
      (some rec.recipe, touchLru s1 rid)

/-- Embeds RecipeStore.get_recipe_meta: api_id, schema_hash and recipe for
safety checks, with the same touch-on-access. -/
def get_recipe_meta (s : RecipeStore) (rid : String) (now : ℚ) :
    Option (String × String × Val) × RecipeStore :=
  match pyGet s.records rid with
  | none => (none, s)
  | some rec =>
      let rec' := { rec with last_used_at := now }
      let s1 := { s with records := pySet s.records rid rec' }
      (some (rec.api_id, rec.schema_hash, rec.recipe), touchLru s1 rid)

/-- One row of the suggest_recipes output. -/
structure SuggestEntry where
  recipe_id : String
  score : ℚ
  created_at : ℚ
  last_used_at : ℚ
  question : String
  tool_name : String
deriving DecidableEq

/-- Floor of a rational as floor-division of numerator by denominator
(kernel-computable form of the integer floor). -/
def ratFloor (x : ℚ) : ℤ :=
  x.num.fdiv x.den

/-- Round-half-to-even on rationals, standing for Python round(). -/
def roundHalfEven (x : ℚ) : ℤ :=
  let f := ratFloor x
  let r := x - f
  if r < 1 / 2 then f
  else if 1 / 2 < r then f + 1
  else if f % 2 = 0 then f else f + 1

/-- Python round(x, 4). -/
def roundTo4 (x : ℚ) : ℚ :=
  (roundHalfEven (x * 10000) : ℚ) / 10000

/-- Embeds RecipeStore.suggest_recipes: score the (api_id, schema_hash)
bucket against the normalized question, keep positive scores, sort
descending by (score, last_used_at) stably, and return the top k as
metadata rows with rounded scores.  base and extra are the external
rapidfuzz collaborators. -/
def suggest_recipes (base extra : String → String → ℚ) (s : RecipeStore)
    (api_id schema_hash question : String) (k : Nat) : List SuggestEntry :=
  let q_sig := normalizeQuestion question
  let ids := (pyGet s.by_key (api_id, schema_hash)).getD []
  let recs := ids.filterMap fun i => pyGet s.records i
  let scored := recs.filterMap fun r =>
    let score := similarity base extra q_sig r.question_sig
    if score > 0 then some (score, r) else none
  let sorted := stableSort (fun a b =>
    decide (b.1 < a.1) ||
      (decide (a.1 = b.1) && decide (b.2.last_used_at ≤ a.2.last_used_at))) scored
  (sorted.take k).map fun sr =>
    { recipe_id := sr.2.recipe_id, score := roundTo4 sr.1,
      created_at := sr.2.created_at, last_used_at := sr.2.last_used_at,
      question := sr.2.question, tool_name := sr.2.tool_name }

/-- A save or a get against the store, with the external uuid/clock inputs. -/
inductive StoreOp where
  | save (rid : String) (now : ℚ) (api_id schema_hash question : String)
      (recipe : Val) (tool_name : String) : StoreOp
  | get (rid : String) (now : ℚ) : StoreOp

/-- State transition of one store operation. -/
def applyOp (s : RecipeStore) : StoreOp → RecipeStore
  | .save rid now a h q r t => (save_recipe s rid now a h q r t).2
  | .get rid now => (get_recipe s rid now).2

/-- Run a sequence of store operations. -/
def runOps (s : RecipeStore) (ops : List StoreOp) : RecipeStore :=
  ops.foldl applyOp s

/-- The request context fields the recipe runner reads (context.py). -/
structure RequestContext where
  target_url : String
  api_type : String
deriving DecidableEq

/-- Embeds common.build_api_id. -/
def build_api_id (ctx : RequestContext) (apiType : String) (base_url : String) : String :=
  if apiType = "graphql" then "graphql:" ++ ctx.target_url
  else "rest:" ++ ctx.target_url ++ "|" ++ base_url

/-- Embeds common.format_recipe_response: success payload with executed
items and SQL, merged with the truncated last rows when they form a list.
truncate_for_context lives in the executor module outside src and is a
parameter. -/
def format_recipe_response (truncate : Val → String → List (String × Val))
    (lastSlot : Option Val) (items : List Val) (executed_sql : List String)
    (item_key : String) : String :=
  let last_rows := lastSlot.getD .vnull
  let base : List (String × Val) :=
    [("success", .vbool true), (item_key, .vlist items),
     ("executed_sql", .vlist (executed_sql.map .vstr))]
  let base' :=
    match last_rows with
    | .vlist xs => updateEntries base (truncate (.vlist xs) "sql_result")
    | _ => base
  jsonDumps (.vdict base')

/-- Embeds the graphql_step_executor closure of runner.execute_recipe_tool.
The graphql_execute transport and extract_tables_from_response (module
executor, outside src) are parameters gql and extractTables.  Rendering the
query template can raise, which escapes this executor uncaught. -/
def graphql_step_executor (gql : String → Val)
    (extractTables : Val → String → Results × Val) : StepExec :=
  fun _ step params results =>
    match step with
    | .vdict sd =>
        if pyGet sd "kind" ≠ some (.vstr "graphql") then
          .ok ((false, none, error_json "invalid recipe step", none), results)
        else
          let name := if pyTruthy (pyGet sd "name") then (pyGet sd "name").getD .vnull
                      else .vstr "data"
          match pyGet sd "query_template" with
          | some (.vstr tmpl) => do
              let query ← render_text_template tmpl params
              let res := gql query
              if !(pyTruthy (vGet res "success")) then
                .ok ((false, none,
                  error_json_v (vGetD res "error" (.vstr "query failed")), none), results)
              else
                let dataV := vGetD res "data" (.vdict [])
                let (tables, _) := extractTables dataV (pyStrOf name)
                let results' := updateEntries results tables
                .ok ((true, pyGet tables (pyStrOf name), "", some (.vstr query)), results')
          | _ => .ok ((false, none, error_json "missing query_template", none), results)
    | _ => .ok ((false, none, error_json "invalid recipe step", none), results)

/-- Value form of one rendered REST argument: non-dicts degrade to None,
and an empty body degrades to None, as in the runner. -/
def restArg (v : Val) : Option Val :=
  match v with
  | .vdict es => some (.vdict es)
  | _ => none

/-- Embeds the rest_step_executor closure of runner.execute_recipe_tool.
The execute_request transport and extract_tables_from_response are
parameters; a KeyError from reference rendering is caught and reported as
a failed step with the quoted exception text. -/
def rest_step_executor
    (restCall : String → String → Option Val → Option Val → Option Val → Val)
    (extractTables : Val → String → Results × Val) : StepExec :=
  fun _ step params results =>
    match step with
    | .vdict sd =>
        if pyGet sd "kind" ≠ some (.vstr "rest") then
          .ok ((false, none, error_json "invalid recipe step", none), results)
        else
          let method := strUpper (pyStrOf ((pyGet sd "method").getD (.vstr "GET")))
          let path := pyStrOf ((pyGet sd "path").getD (.vstr ""))
          let name := pyStrOf (if pyTruthy (pyGet sd "name") then (pyGet sd "name").getD .vnull
                               else .vstr "data")
          let getOr := fun (key : String) =>
            if pyTruthy (pyGet sd key) then (pyGet sd key).getD .vnull else .vdict []
          match (do
              let pp ← render_param_refs params (getOr "path_params")
              let qp ← render_param_refs params (getOr "query_params")
              let bd ← render_param_refs params (getOr "body")
              pure (pp, qp, bd) : Except String (Val × Val × Val)) with
          | .error e =>
              .ok ((false, none, error_json ("'" ++ e ++ "'"), none), results)
          | .ok (pp, qp, bd) =>
              let path_params := restArg pp
              let query_params := restArg qp
              let body := match bd with
                | .vdict [] => none
                | .vdict es => some (.vdict es)
                | _ => none
              let res := restCall method path path_params query_params body
              if !(pyTruthy (vGet res "success")) then
                .ok ((false, none,
                  error_json_v (vGetD res "error" (.vstr "request failed")), none), results)
              else
                let dataV := vGetD res "data" (.vdict [])
                let (tables, _) := extractTables dataV name
                let results' := updateEntries results tables
                let callRec : Val := .vdict
                  [("method", .vstr method), ("path", .vstr path),
                   ("path_params", .vstr (match path_params with
                     | some v => if pyTruthy (some v) then jsonCompact v else ""
                     | none => "")),
                   ("query_params", .vstr (match query_params with
                     | some v => if pyTruthy (some v) then jsonCompact v else ""
                     | none => "")),
                   ("body", .vstr (match body with
                     | some v => if pyTruthy (some v) then jsonCompact v else ""
                     | none => "")),
                   ("name", .vstr name), ("success", .vbool true)]
                .ok ((true, pyGet tables name, "", some callRec), results')
    | _ => .ok ((false, none, error_json "invalid recipe step", none), results)

/-- External collaborators of runner.execute_recipe_tool: schema loading
and hashing, the two transports, table extraction, the SQL engine, CSV
conversion and context truncation; none of them is code under src. -/
structure RunnerEnv where
  hashFn : String → String
  loadSchema : Unit → String × String
  gql : String → Val
  restCall : String → String → Option Val → Option Val → Option Val → Val
  extractTables : Val → String → Results × Val
  sqlExec : SqlExec
  toCsv : Val → String
  truncate : Val → String → List (String × Val)

/-- The tail of runner.execute_recipe_tool past the (api_id, schema_hash)
guard: parameter validation, then the phased execution with the
per-transport step executor; returns the response JSON (or CSV) and the
store.  Uncaught rendering exceptions surface as Except.error. -/
def execute_after_guard (env : RunnerEnv) (ctx : RequestContext) (s : RecipeStore)
    (m_recipe : Val) (params : Option (List (String × Val)))
    (return_directly : Bool) (base_url : String) :
    Except String (String × RecipeStore) := do
      let recipe : List (String × Val) :=
        match m_recipe with
        | .vdict es => es
        | _ => []
      let params_spec : List (String × Val) :=
        match pyGet recipe "params" with
        | some (.vdict ps) => ps
        | _ => []
      let provided := params.getD []
      match validate_recipe_params params_spec provided with
      | (_, err) =>
          if err ≠ "" then return (err, s)
          let validated := (validate_recipe_params params_spec provided).1.getD []
          let results0 : Results := []
          let lastSlot0 : Option Val := some .vnull
          if ctx.api_type = "graphql" then do
            let ((ok, last_data, executed_sql, err2), (_, lastSlot, items)) ←
              execute_recipe_steps (graphql_step_executor env.gql env.extractTables)
                env.sqlExec recipe validated results0 lastSlot0
            if !ok then return (err2, s)
            if return_directly then return (env.toCsv last_data, s)
            return (format_recipe_response env.truncate lastSlot items executed_sql
              "executed_queries", s)
          else do
            if base_url = "" then
              return (error_json "Could not determine base URL for REST API", s)
            let ((ok, last_data, executed_sql, err2), (_, lastSlot, items)) ←
              execute_recipe_steps (rest_step_executor env.restCall env.extractTables)
                env.sqlExec recipe validated results0 lastSlot0
            if !ok then return (err2, s)
            if return_directly then return (env.toCsv last_data, s)
            return (format_recipe_response env.truncate lastSlot items executed_sql
              "executed_calls", s)

/-- Embeds runner.execute_recipe_tool: schema guard, recipe lookup and the
(api_id, schema_hash) match guard, then the execute_after_guard tail. -/
def execute_recipe_tool (env : RunnerEnv) (ctx : RequestContext) (s : RecipeStore)
    (recipe_id : String) (params : Option (List (String × Val)))
    (return_directly : Bool) (raw_schema0 base_url0 : String) (now : ℚ) :
    Except String (String × RecipeStore) := do
  let (raw_schema, base_url) :=
    if raw_schema0 = "" then env.loadSchema () else (raw_schema0, base_url0)
  if raw_schema = "" then return (error_json "schema not loaded", s)
  match get_recipe_meta s recipe_id now with
  | (none, s) => return (error_json ("recipe not found: " ++ recipe_id), s)
  | (some (m_api_id, m_schema_hash, m_recipe), s) =>
      let schema_hash := env.hashFn raw_schema
      let api_id := build_api_id ctx ctx.api_type base_url
      if m_schema_hash ≠ schema_hash || m_api_id ≠ api_id then
        return (error_json "recipe does not match current API or schema", s)
      execute_after_guard env ctx s m_recipe params return_directly base_url

/-- Embeds common.maybe_extract_and_save_recipe.  The LLM extraction call
is external: llmOutput is the parsed candidate it produced (None when it
returned nothing parseable); the validation tail runs through
accept_candidate and any exception it raises is swallowed by the
orchestrator's catch-all handler, leaving the store untouched. -/
def maybe_extract_and_save_recipe (enabled skip : Bool) (apiType api_id question : String)
    (steps : List (List (String × Val))) (sql_steps : List String) (raw_schema : String)
    (hashFn : String → String) (llmOutput : Option (List (String × Val)))
    (s : RecipeStore) (rid : String) (now : ℚ) : RecipeStore :=
  if !enabled then s
  else if skip then s
  else if steps.isEmpty || raw_schema = "" then s
  else
    let outcome : Except String (Option (List (String × Val))) :=
      match llmOutput with
      | none => .ok none
      | some cand => accept_candidate apiType steps sql_steps cand
    match outcome with
    | .error _ => s
    | .ok none => s
    | .ok (some recipe) =>
        let tool_name :=
          match pyGet recipe "tool_name" with
          | some (.vstr t) => t
          | _ => ""
        (save_recipe s rid now api_id (hashFn raw_schema) question
          (.vdict recipe) tool_name).2

/-- Heap-level Python values for the aliasing model: scalars are immutable,
containers live behind references. -/
inductive PyVal where
  | pnull : PyVal
  | pbool (b : Bool) : PyVal
  | pint (n : Int) : PyVal
  | pstr (s : String) : PyVal
  | pref (a : Nat) : PyVal
deriving DecidableEq

/-- A mutable container cell: a dict or a list. -/
inductive PyCell where
  | cdict (es : List (String × PyVal)) : PyCell
  | clist (xs : List PyVal) : PyCell
deriving DecidableEq

/-- A heap of container cells with a fresh-address counter. -/
structure PyHeap where
  cells : List (Nat × PyCell)
  next : Nat
deriving DecidableEq

/-- Cell lookup. -/
def heapGet (h : PyHeap) (a : Nat) : Option PyCell :=
  pyGet h.cells a

/-- In-place mutation of a cell. -/
def heapSet (h : PyHeap) (a : Nat) (c : PyCell) : PyHeap :=
  { h with cells := pySet h.cells a c }

/-- Allocate a fresh cell. -/
def halloc (h : PyHeap) (c : PyCell) : Nat × PyHeap :=
  (h.next, { cells := pySet h.cells h.next c, next := h.next + 1 })

/-- Python dict(d): a new top-level cell sharing the old entry values
(shallow copy; nested container references are shared). -/
def dictShallowCopy (h : PyHeap) (a : Nat) : Option (Nat × PyHeap) :=
  match heapGet h a with
  | some (.cdict es) => some (halloc h (.cdict es))
  | _ => none

/-- The record.recipe = dict(recipe) copy of save_recipe at heap level:
the store maps the id to the address of a fresh shallow copy. -/
def save_recipe_heap (h : PyHeap) (store : List (String × Nat)) (rid : String)
    (recipeAddr : Nat) : Option (List (String × Nat) × PyHeap) :=
  match dictShallowCopy h recipeAddr with
  | some (addr, h') => some (pySet store rid addr, h')
  | none => none

/-- The dict(rec.recipe) copy of get_recipe at heap level: None for an
unknown id, otherwise the address of a fresh shallow copy. -/
def get_recipe_heap (h : PyHeap) (store : List (String × Nat)) (rid : String) :
    Option Nat × PyHeap :=
  match pyGet store rid with
  | none => (none, h)
  | some a =>
      match dictShallowCopy h a with
      | some (addr, h') => (some addr, h')
      | none => (none, h)

/-- Caller-side list mutation obj.append(v) through a reference. -/
def listAppend (h : PyHeap) (a : Nat) (v : PyVal) : PyHeap :=
  match heapGet h a with
  | some (.clist xs) => heapSet h a (.clist (xs ++ [v]))
  | _ => h

/-- Read a heap value out to a pure value, following references up to the
given depth. -/
def materialize (h : PyHeap) : Nat → PyVal → Val
  | _, .pnull => .vnull
  | _, .pbool b => .vbool b
  | _, .pint n => .vint n
  | _, .pstr s => .vstr s
  | 0, .pref _ => .vnull
  | fuel + 1, .pref a =>
      match heapGet h a with
      | some (.cdict es) => .vdict (es.map fun kv => (kv.1, materialize h fuel kv.2))
      | some (.clist xs) => .vlist (xs.map (materialize h fuel))
      | none => .vnull


/-- Effective parameter values used by equivalence validation: every
declared default, nothing else. -/
def effDefaults (recipe : List (String × Val)) : List (String × Val) :=
  params_with_defaults
    (match pyGet recipe "params" with
     | some (.vdict ps) => ps
     | _ => []) []

/-- Specification-side per-step property: the recipe step is a dict with
the original step's kind whose templated fields render back to the
original step under the given parameter values. -/
def stepReproduces (apiType : String) (params : List (String × Val))
    (orig : List (String × Val)) (rec : Val) : Prop :=
  ∃ rd, rec = Val.vdict rd ∧ pyGet rd "kind" = pyGet orig "kind" ∧
    (if apiType = "graphql" then validate_step_graphql orig rd params = .ok true
     else validate_step_rest orig rd params = .ok true)

/-- Specification-side per-SQL-step property: the template renders and,
whitespace-normalized, equals the originally executed query. -/
def sqlReproduces (params : List (String × Val)) (orig : String) (rec : Val) : Prop :=
  ∃ t s, rec = Val.vstr t ∧ render_text_template t params = .ok s ∧
    normalize_ws s = normalize_ws orig

/-- Specification-side equivalence: list-shaped steps of the original
lengths whose every step and SQL template reproduces the original trace
under the recipe's declared defaults. -/
def equivSpec (apiType : String) (original_steps : List (List (String × Val)))
    (original_sql : List String) (recipe : List (String × Val)) : Prop :=
  ∃ r_steps r_sql,
    pyGet recipe "steps" = some (.vlist r_steps) ∧
    pyGet recipe "sql_steps" = some (.vlist r_sql) ∧
    r_steps.length = original_steps.length ∧ r_sql.length = original_sql.length ∧
    List.Forall₂ (stepReproduces apiType (effDefaults recipe)) original_steps r_steps ∧
    List.Forall₂ (sqlReproduces (effDefaults recipe)) original_sql r_sql

/-- Property of the value held by an Option, False when absent. -/
def optionProp {α : Type} (o : Option α) (P : α → Prop) : Prop :=
  match o with
  | none => False
  | some a => P a

instance {α : Type} (o : Option α) (P : α → Prop) [DecidablePred P] :
    Decidable (optionProp o P) := by
  cases o with
  | none => exact .isFalse (fun h => h)
  | some a => exact (inferInstance : Decidable (P a))

/-- Bookkeeping invariant of the store's record table and LRU order:
unique ids, the LRU list holds exactly the record ids, records carry
their own id, and the capacity clamp holds. -/
def GoodCap (s : RecipeStore) : Prop :=
  (s.records.map Prod.fst).Nodup ∧ s.lru.Nodup ∧
  (∀ rid ∈ s.lru, rid ∈ s.records.map Prod.fst) ∧
  (∀ rid ∈ s.records.map Prod.fst, rid ∈ s.lru) ∧
  (∀ kv ∈ s.records, kv.2.recipe_id = kv.1) ∧
  1 ≤ s.max_size

/-- Bookkeeping invariant of the (api_id, schema_hash) index: unique
bucket keys, duplicate-free buckets, and every bucketed id resolves to a
record carrying exactly that bucket's pair. -/
def GoodKey (s : RecipeStore) : Prop :=
  (s.by_key.map Prod.fst).Nodup ∧
  (∀ b ∈ s.by_key, b.2.Nodup) ∧
  (∀ b ∈ s.by_key, ∀ rid ∈ b.2,
    optionProp (pyGet s.records rid) fun rec =>
      rec.api_id = b.1.1 ∧ rec.schema_hash = b.1.2)

/-- Full store invariant. -/
def Good (s : RecipeStore) : Prop := GoodCap s ∧ GoodKey s

/-- Heap well-formedness: every allocated address is below the counter. -/
def WfHeap (h : PyHeap) : Prop := ∀ p ∈ h.cells, p.1 < h.next

/-- Concrete original REST step of the spec scenario (GET /users with
query_params limit=10). -/
def origStepEx : List (String × Val) :=
  [("kind", .vstr "rest"), ("name", .vstr "users"), ("method", .vstr "GET"),
   ("path", .vstr "/users"), ("query_params", .vdict [("limit", .vint 10)])]

/-- Concrete candidate recipe of the spec scenario, parameterized by the
declared default for limit. -/
def recipeEx (d : Int) : List (String × Val) :=
  [("tool_name", .vstr "get_users"),
   ("params", .vdict [("limit", .vdict [("type", .vstr "int"), ("default", .vint d)])]),
   ("steps", .vlist [.vdict [("kind", .vstr "rest"), ("name", .vstr "users"),
      ("method", .vstr "GET"), ("path", .vstr "/users"),
      ("query_params", .vdict [("limit", .vdict [("$param", .vstr "limit")])])]]),
   ("sql_steps", .vlist [])]

/-- Concrete candidate whose declared parameter x has no default yet is
referenced by a template: validation raises instead of deciding. -/
def raisingCandidate : List (String × Val) :=
  [("tool_name", .vstr "get_x"),
   ("params", .vdict [("x", .vdict [("type", .vstr "str")])]),
   ("steps", .vlist []),
   ("sql_steps", .vlist [.vstr "SELECT * FROM t WHERE a = '\x7b\x7bx\x7d\x7d'"])]

/-- Original steps for the kind-mismatch counterexample: two REST steps. -/
def origStepsKindEx : List (List (String × Val)) :=
  [[("kind", .vstr "rest"), ("name", .vstr "a"), ("method", .vstr "GET"),
    ("path", .vstr "/a"), ("query_params", .vdict [("q", .vint 1)])],
   [("kind", .vstr "rest"), ("name", .vstr "b"), ("method", .vstr "GET"),
    ("path", .vstr "/b")]]

/-- Candidate for the kind-mismatch counterexample: step 0 matches the
original but references an undeclared parameter, step 1 has the wrong
kind; validation raises at step 0 before seeing step 1. -/
def kindMismatchCandidate : List (String × Val) :=
  [("tool_name", .vstr "get_ab"), ("params", .vdict []),
   ("steps", .vlist
     [.vdict [("kind", .vstr "rest"), ("name", .vstr "a"), ("method", .vstr "GET"),
       ("path", .vstr "/a"), ("query_params", .vdict [("q", .vdict [("$param", .vstr "x")])])],
      .vdict [("kind", .vstr "graphql"), ("name", .vstr "b")]]),
   ("sql_steps", .vlist [])]

/-- Step executor that always fails with a fixed error. -/
def failExecEx : StepExec :=
  fun _ _ _ results => .ok ((false, none, "step failed: boom", none), results)

/-- Two-phase recipe of the execution-engine scenario: one API step that
would produce table data, one SQL step over it. -/
def recipeTwoStepEx : List (String × Val) :=
  [("steps", .vlist [.vdict [("kind", .vstr "rest"), ("name", .vstr "data")]]),
   ("sql_steps", .vlist [.vstr "SELECT * FROM data WHERE active = true"])]

/-- Parameter spec with an explicit null default. -/
def nullDefaultSpecEx : List (String × Val) :=
  [("id", .vdict [("type", .vstr "int"), ("default", .vnull)])]

/-- Initial heap of the aliasing scenario: an empty list at address 0 and
a recipe dict at address 1 whose steps field references it. -/
def heapEx : PyHeap :=
  { cells := [(0, .clist []), (1, .cdict [("steps", .pref 0)])], next := 2 }

/-- Store and heap after saving the scenario recipe under id r1 (the
shallow copy lives at address 2). -/
def savedEx : List (String × Nat) × PyHeap :=
  (save_recipe_heap heapEx [] "r1" 1).getD ([], heapEx)

/-- Result of reading r1 back: the caller's shallow copy (address 3). -/
def gotEx : Option Nat × PyHeap :=
  get_recipe_heap savedEx.2 savedEx.1 "r1"

/-- Heap after the caller appends through the nested steps list it can
reach from the returned copy. -/
def mutatedEx : PyHeap :=
  listAppend gotEx.2 0 (.pint 1)

/-- Capacity-1 store scenario: save r1, touch it via get, save r2. -/
def cap1AfterSaves : RecipeStore :=
  runOps (mkStore 1)
    [.save "r1" 1 "api" "h" "q one" (.vdict []) "t1",
     .get "r1" 2,
     .save "r2" 3 "api" "h" "q two" (.vdict []) "t2"]

/-- Capacity-2 store scenario: fill with r1 r2, touch r1, save r3. -/
def cap2AfterSaves : RecipeStore :=
  runOps (mkStore 2)
    [.save "r1" 1 "api" "h" "q one" (.vdict []) "t1",
     .save "r2" 2 "api" "h" "q two" (.vdict []) "t2",
     .get "r1" 3,
     .save "r3" 4 "api" "h" "q three" (.vdict []) "t3"]

/-- Capacity-2 store scenario without the touch: three distinct saves. -/
def cap2NoTouch : RecipeStore :=
  runOps (mkStore 2)
    [.save "r1" 1 "api" "h" "q one" (.vdict []) "t1",
     .save "r2" 2 "api" "h" "q two" (.vdict []) "t2",
     .save "r3" 3 "api" "h" "q three" (.vdict []) "t3"]

/-- Capacity-2 store holding r1 and r2, r1 saved first. -/
def cap2TwoSaves : RecipeStore :=
  runOps (mkStore 2)
    [.save "r1" 1 "api" "h" "q one" (.vdict []) "t1",
     .save "r2" 2 "api" "h" "q two" (.vdict []) "t2"]

/-- The default that the collection loop of params_with_defaults leaves for
a key: the last dict-valued spec entry for that key whose default key is
present contributes its default value. -/
def declaredDefault : List (String × Val) → String → Option Val
  | [], _ => none
  | (k', v) :: rest, k =>
      match declaredDefault rest k with
      | some d => some d
      | none =>
          if k = k' then
            match v with
            | .vdict sd => pyGet sd "default"
            | _ => none
          else none

/-- Original trace for the non-totality scenario: one REST step whose
query_params carry a concrete value. -/
def origStepsRaiseEx : List (List (String × Val)) :=
  [[("kind", .vstr "rest"), ("name", .vstr "a"), ("method", .vstr "GET"),
    ("path", .vstr "/a"), ("query_params", .vdict [("q", .vstr "v")])]]

/-- Candidate for the non-totality scenario: it declares parameter x with
no default and references it in the step's query_params, so rendering
during equivalence validation raises instead of returning a verdict. -/
def raisingStepCandidate : List (String × Val) :=
  [("tool_name", .vstr "get_a"),
   ("params", .vdict [("x", .vdict [("type", .vstr "str")])]),
   ("steps", .vlist [.vdict [("kind", .vstr "rest"), ("name", .vstr "a"),
      ("method", .vstr "GET"), ("path", .vstr "/a"),
      ("query_params", .vdict [("q", .vdict [("$param", .vstr "x")])])]]),
   ("sql_steps", .vlist [])]

/-- Concrete store of the schema-guard scenario: one record saved under
(api, h). -/
def storeC9 : RecipeStore :=
  { max_size := 5,
    records := [("r1",
      { recipe_id := "r1", api_id := "api", schema_hash := "h",
        question := "q", question_sig := "q", question_tokens := ["q"],
        recipe := .vdict [], tool_name := "t", created_at := 1,
        last_used_at := 1 })],
    by_key := [(("api", "h"), ["r1"])], lru := ["r1"] }

/-- Request context of the schema-guard scenario. -/
def ctxC9 : RequestContext :=
  { target_url := "u", api_type := "rest" }

/-- Runner collaborators of the schema-guard scenario; the hash function
returns a hash differing from the stored one. -/
def envC9 : RunnerEnv :=
  { hashFn := fun _ => "h2", loadSchema := fun _ => ("", ""),
    gql := fun _ => .vdict [], restCall := fun _ _ _ _ _ => .vdict [],
    extractTables := fun _ _ => ([], .vnull), sqlExec := fun _ _ => .vdict [],
    toCsv := fun _ => "", truncate := fun _ _ => [] }


theorem renderSegs_all_lits (params : List (String × Val)) :
    ∀ cs : List Char, renderSegs params (cs.map .lit) = .ok cs := by
  intro cs
  induction cs with
  | nil => rfl
  | cons c rest ih => simp [renderSegs, ih, Except.map]

theorem renderTextF_eq_renderSegs (params : List (String × Val)) :
    ∀ fuel cs, renderTextF params fuel cs = renderSegs params (scanTemplateF fuel cs) := by
  intro fuel cs
  induction fuel, cs using renderTextF.induct params with
  | case1 cs => rw [renderTextF.eq_1, scanTemplateF.eq_1, renderSegs_all_lits]
  | case2 n => rfl
  | case3 fuel rest name rest2 hm hnone =>
      rw [renderTextF.eq_3, scanTemplateF.eq_3, hm]
      simp [renderSegs, hnone]
  | case4 fuel rest name rest2 hm v hv ih =>
      rw [renderTextF.eq_3, scanTemplateF.eq_3, hm]
      simp only [renderSegs, hv, ih]
      cases renderSegs params (scanTemplateF fuel rest2) <;> rfl
  | case5 fuel rest hm ih =>
      rw [renderTextF.eq_3, scanTemplateF.eq_3, hm]
      simp only [renderSegs, ih]
      cases renderSegs params (scanTemplateF fuel ('{' :: rest)) <;> rfl
  | case6 fuel c rest hside ih =>
      rw [renderTextF.eq_4 params fuel c rest hside, scanTemplateF.eq_4 fuel c rest hside]
      simp only [renderSegs, ih]
      cases renderSegs params (scanTemplateF fuel rest) <;> rfl

theorem renderSegs_isOk_iff (params : List (String × Val)) :
    ∀ segs : List TSeg,
      (∃ s, renderSegs params segs = .ok s) ↔
        ∀ n ∈ segs.filterMap (fun seg =>
            match seg with
            | .ph n => some n
            | .lit _ => none), (pyGet params n).isSome := by
  intro segs
  induction segs with
  | nil => simp [renderSegs]
  | cons seg rest ih =>
      cases seg with
      | lit c =>
          simp only [renderSegs, List.filterMap_cons]
          constructor
          · rintro ⟨s, hs⟩
            cases hr : renderSegs params rest with
            | error e => rw [hr] at hs; simp [Except.map] at hs
            | ok t => exact ih.mp ⟨t, hr⟩
          · intro h
            obtain ⟨t, ht⟩ := ih.mpr h
            exact ⟨c :: t, by simp [ht, Except.map]⟩
      | ph n =>
          simp only [renderSegs, List.filterMap_cons]
          cases hp : pyGet params n with
          | none =>
              constructor
              · rintro ⟨s, hs⟩; simp at hs
              · intro h
                have := h n (by simp)
                rw [hp] at this
                simp at this
          | some v =>
              constructor
              · rintro ⟨s, hs⟩
                intro m hm
                simp only [List.mem_cons] at hm
                rcases hm with rfl | hm
                · simp [hp]
                · cases hr : renderSegs params rest with
                  | error e => rw [hr] at hs; simp [Except.map] at hs
                  | ok t => exact (ih.mp ⟨t, hr⟩) m hm
              · intro h
                obtain ⟨t, ht⟩ := ih.mpr (fun m hm => h m (by simp [hm]))
                exact ⟨(asText v).data ++ t, by simp [ht, Except.map]⟩

theorem renderSegs_error_shape (params : List (String × Val)) :
    ∀ (segs : List TSeg) (e : String), renderSegs params segs = .error e →
      ∃ n, n ∈ segs.filterMap (fun seg =>
          match seg with
          | .ph n => some n
          | .lit _ => none) ∧
        pyGet params n = none ∧ e = "missing param: " ++ n := by
  intro segs
  induction segs with
  | nil => intro e he; simp [renderSegs] at he
  | cons seg rest ih =>
      intro e he
      cases seg with
      | lit c =>
          cases hr : renderSegs params rest with
          | error e' =>
              rw [renderSegs, hr] at he
              simp [Except.map] at he
              obtain ⟨n, hn, hp, hee⟩ := ih e' hr
              exact ⟨n, by simp [List.filterMap_cons, hn], hp, by rw [he] at hee; exact hee⟩
          | ok t => rw [renderSegs, hr] at he; simp [Except.map] at he
      | ph n =>
          cases hp : pyGet params n with
          | none =>
              rw [renderSegs, hp] at he
              simp only [Except.error.injEq] at he
              exact ⟨n, by simp [List.filterMap_cons], hp, he.symm⟩
          | some v =>
              cases hr : renderSegs params rest with
              | error e' =>
                  rw [renderSegs, hp, hr] at he
                  simp [Except.map] at he
                  obtain ⟨m, hm, hpm, hee⟩ := ih e' hr
                  exact ⟨m, by simp [List.filterMap_cons, hm], hpm,
                    by rw [he] at hee; exact hee⟩
              | ok t => rw [renderSegs, hp, hr] at he; simp [Except.map] at he

/-- C7: free-text rendering is the segment decomposition of the template
with every placeholder occurrence replaced by the type-aware text of its
parameter value (true/false for booleans, null for None, str() otherwise);
it succeeds exactly when every referenced name is present and otherwise
fails with that name's missing-parameter error — never a default.
Structured rendering replaces an exact one-key parameter-reference dict
wholesale by the looked-up parameter (failing the same way on a missing
name), walks every other dict and list recursively, and passes scalars
through unchanged. -/
theorem C7_template_renderer :
    (∀ t params, render_text_template t params =
        (renderSegs params (scanTemplate t)).map String.mk) ∧
    (∀ t params, (∃ s, render_text_template t params = .ok s) ↔
        ∀ n ∈ placeholderNames t, (pyGet params n).isSome) ∧
    (∀ t params e, render_text_template t params = .error e →
        ∃ n, n ∈ placeholderNames t ∧ pyGet params n = none ∧
          e = "missing param: " ++ n) ∧
    (asText (.vbool true) = "true" ∧ asText (.vbool false) = "false" ∧
      asText .vnull = "null" ∧ (∀ n : Int, asText (.vint n) = toString n) ∧
      (∀ s, asText (.vstr s) = s)) ∧
    (∀ params es p, es.map Prod.fst = ["$param"] →
        pyGet es "$param" = some (.vstr p) →
        render_param_refs params (.vdict es) =
          match pyGet params p with
          | none => Except.error ("missing param: " ++ p)
          | some v => Except.ok v) ∧
    (∀ params es, es.map Prod.fst ≠ ["$param"] →
        render_param_refs params (.vdict es) =
          (renderRefsDict params es).map Val.vdict) ∧
    (∀ params xs, render_param_refs params (.vlist xs) =
        (renderRefsList params xs).map Val.vlist) ∧
    (∀ params k v rest, renderRefsDict params ((k, v) :: rest) = do
        let v' ← render_param_refs params v
        let rest' ← renderRefsDict params rest
        Except.ok ((k, v') :: rest')) ∧
    (∀ params x rest, renderRefsList params (x :: rest) = do
        let x' ← render_param_refs params x
        let rest' ← renderRefsList params rest
        Except.ok (x' :: rest')) ∧
    (∀ params, render_param_refs params .vnull = .ok .vnull ∧
      (∀ b, render_param_refs params (.vbool b) = .ok (.vbool b)) ∧
      (∀ n : Int, render_param_refs params (.vint n) = .ok (.vint n)) ∧
      (∀ s, render_param_refs params (.vstr s) = .ok (.vstr s))) := by
  refine ⟨?_, ?_, ?_, ?_, ?_, ?_, ?_, ?_, ?_, ?_⟩
  · intro t params
    rw [render_text_template, scanTemplate, renderTextF_eq_renderSegs]
  · intro t params
    rw [render_text_template, renderTextF_eq_renderSegs]
    constructor
    · rintro ⟨s, hs⟩
      cases hr : renderSegs params (scanTemplateF t.data.length t.data) with
      | error e => rw [hr] at hs; simp [Except.map] at hs
      | ok cs =>
          exact (renderSegs_isOk_iff params _).mp ⟨cs, hr⟩
    · intro h
      obtain ⟨cs, hcs⟩ := (renderSegs_isOk_iff params (scanTemplate t)).mpr h
      rw [scanTemplate] at hcs
      rw [hcs]
      exact ⟨String.mk cs, rfl⟩
  · intro t params e he
    rw [render_text_template, renderTextF_eq_renderSegs] at he
    cases hr : renderSegs params (scanTemplateF t.data.length t.data) with
    | error e' =>
        rw [hr] at he
        simp [Except.map] at he
        subst he
        exact renderSegs_error_shape params _ e' hr
    | ok cs => rw [hr] at he; simp [Except.map] at he
  · exact ⟨rfl, rfl, rfl, fun n => rfl, fun s => rfl⟩
  · intro params es p hkeys hval
    rw [render_param_refs, if_pos hkeys, hval]
  · intro params es hkeys
    rw [render_param_refs, if_neg hkeys]
    cases renderRefsDict params es <;> rfl
  · intro params xs
    rw [render_param_refs]
    cases renderRefsList params xs <;> rfl
  · intro params k v rest; rfl
  · intro params x rest; rfl
  · intro params
    exact ⟨rfl, fun b => by cases b <;> rfl, fun n => rfl, fun s => rfl⟩

/-- Witness for C7 at concrete inputs: a one-key reference dict is
replaced by the looked-up parameter value. -/
theorem C7_template_renderer_witness :
    render_param_refs [("limit", Val.vint 10)] (.vdict [("$param", .vstr "limit")]) =
      .ok (.vint 10) :=
  C7_template_renderer.2.2.2.2.1 [("limit", Val.vint 10)]
    [("$param", Val.vstr "limit")] "limit" (by decide) (by decide)

theorem pyGet_pySet_self {α β : Type} [DecidableEq α] (l : List (α × β)) (k : α) (v : β) :
    pyGet (pySet l k v) k = some v := by
  induction l with
  | nil => simp [pySet, pyGet]
  | cons p rest ih =>
      obtain ⟨k', v'⟩ := p
      by_cases h : k' = k
      · subst h; simp [pySet, pyGet]
      · simp [pySet, pyGet, h, ih]

theorem pyGet_pySet_ne {α β : Type} [DecidableEq α] (l : List (α × β)) (k k' : α) (v : β)
    (h : k' ≠ k) : pyGet (pySet l k v) k' = pyGet l k' := by
  induction l with
  | nil => simp [pySet, pyGet, Ne.symm h]
  | cons p rest ih =>
      obtain ⟨k0, v0⟩ := p
      by_cases h0 : k0 = k
      · subst h0; simp [pySet, pyGet, Ne.symm h]
      · simp only [pySet, if_neg h0, pyGet]
        by_cases h1 : k0 = k'
        · simp [h1]
        · simp [h1, ih]

theorem pyGet_eq_none_iff {α β : Type} [DecidableEq α] (l : List (α × β)) (k : α) :
    pyGet l k = none ↔ k ∉ l.map Prod.fst := by
  induction l with
  | nil => simp [pyGet]
  | cons p rest ih =>
      obtain ⟨k0, v0⟩ := p
      by_cases h : k0 = k
      · subst h; simp [pyGet]
      · simp [pyGet, h, ih, Ne.symm h]

theorem pyGet_mem {α β : Type} [DecidableEq α] {l : List (α × β)} {k : α} {v : β}
    (h : pyGet l k = some v) : (k, v) ∈ l := by
  induction l with
  | nil => simp [pyGet] at h
  | cons p rest ih =>
      obtain ⟨k0, v0⟩ := p
      by_cases h0 : k0 = k
      · subst h0
        rw [pyGet, if_pos rfl] at h
        cases h
        exact List.mem_cons_self _ _
      · simp only [pyGet, if_neg h0] at h
        exact List.mem_cons_of_mem _ (ih h)

theorem pyGet_isSome_iff {α β : Type} [DecidableEq α] (l : List (α × β)) (k : α) :
    (pyGet l k).isSome = true ↔ k ∈ l.map Prod.fst := by
  cases h : pyGet l k with
  | none =>
      simp only [Option.isSome_none, Bool.false_eq_true, false_iff]
      exact (pyGet_eq_none_iff l k).mp h
  | some v =>
      simp only [Option.isSome_some, true_iff]
      exact List.mem_map_of_mem Prod.fst (pyGet_mem h)

theorem pySet_map_fst_mem {α β : Type} [DecidableEq α] (l : List (α × β)) (k : α) (v : β)
    (h : k ∈ l.map Prod.fst) : (pySet l k v).map Prod.fst = l.map Prod.fst := by
  induction l with
  | nil => simp at h
  | cons p rest ih =>
      obtain ⟨k0, v0⟩ := p
      by_cases h0 : k0 = k
      · subst h0; simp [pySet]
      · simp only [List.map_cons, List.mem_cons] at h
        rcases h with h | h
        · exact absurd h.symm h0
        · simp [pySet, h0, ih h]

theorem pySet_map_fst_not_mem {α β : Type} [DecidableEq α] (l : List (α × β)) (k : α) (v : β)
    (h : k ∉ l.map Prod.fst) : (pySet l k v).map Prod.fst = l.map Prod.fst ++ [k] := by
  induction l with
  | nil => simp [pySet]
  | cons p rest ih =>
      obtain ⟨k0, v0⟩ := p
      simp only [List.map_cons, List.mem_cons] at h
      push_neg at h
      simp [pySet, Ne.symm h.1, ih h.2]

theorem pyPop_fst {α β : Type} [DecidableEq α] (l : List (α × β)) (k : α) :
    (pyPop l k).1 = pyGet l k := by
  induction l with
  | nil => simp [pyPop, pyGet]
  | cons p rest ih =>
      obtain ⟨k0, v0⟩ := p
      by_cases h0 : k0 = k
      · subst h0; simp [pyPop, pyGet]
      · simp [pyPop, pyGet, h0, ih]

theorem pyPop_map_fst {α β : Type} [DecidableEq α] (l : List (α × β)) (k : α) :
    (pyPop l k).2.map Prod.fst = (l.map Prod.fst).erase k := by
  induction l with
  | nil => simp [pyPop]
  | cons p rest ih =>
      obtain ⟨k0, v0⟩ := p
      by_cases h0 : k0 = k
      · subst h0; simp [pyPop, List.erase_cons_head]
      · simp [pyPop, h0, List.erase_cons, ih]

theorem pyGet_pyPop_ne {α β : Type} [DecidableEq α] (l : List (α × β)) (k k' : α)
    (h : k' ≠ k) : pyGet (pyPop l k).2 k' = pyGet l k' := by
  induction l with
  | nil => simp [pyPop]
  | cons p rest ih =>
      obtain ⟨k0, v0⟩ := p
      by_cases h0 : k0 = k
      · subst h0; simp [pyPop, pyGet, Ne.symm h]
      · simp only [pyPop, if_neg h0]
        by_cases h1 : k0 = k'
        · simp [pyGet, h1]
        · simp [pyGet, h1, ih]

theorem pyGet_pyPop_self {α β : Type} [DecidableEq α] (l : List (α × β)) (k : α)
    (hnd : (l.map Prod.fst).Nodup) : pyGet (pyPop l k).2 k = none := by
  rw [pyGet_eq_none_iff, pyPop_map_fst]
  intro hmem
  by_cases h : k ∈ l.map Prod.fst
  · exact (List.Nodup.not_mem_erase hnd) hmem
  · exact h ((l.map Prod.fst).erase_subset k hmem)

theorem mem_insertSorted {α : Type} (le : α → α → Bool) (x a : α) :
    ∀ l : List α, a ∈ insertSorted le x l ↔ a = x ∨ a ∈ l := by
  intro l
  induction l with
  | nil => simp [insertSorted]
  | cons y ys ih =>
      rw [insertSorted]
      split
      · simp only [List.mem_cons, ih]
        tauto
      · simp [List.mem_cons]

theorem mem_stableSort {α : Type} (le : α → α → Bool) (l : List α) (a : α) :
    a ∈ stableSort le l ↔ a ∈ l := by
  rw [stableSort]
  suffices h : ∀ (l : List α) (acc : List α),
      a ∈ l.foldl (fun acc x => insertSorted le x acc) acc ↔ a ∈ acc ∨ a ∈ l by
    rw [h l []]
    simp
  intro l
  induction l with
  | nil => intro acc; simp
  | cons x xs ih =>
      intro acc
      rw [List.foldl_cons, ih (insertSorted le x acc)]
      rw [mem_insertSorted]
      simp only [List.mem_cons]
      tauto

theorem tokensOf_nodup (q : String) : (tokensOf q).Nodup :=
  List.nodup_dedup _

theorem tokensOf_of_norm_empty {q : String} (h : normalizeQuestion q = "") :
    tokensOf q = [] := by
  rw [tokensOf, h]
  rfl

theorem qmin_eq_min (a b : ℚ) : qmin a b = min a b := by
  rw [qmin, min_def]
  rcases lt_trichotomy a b with h | h | h
  · rw [if_pos h, if_pos h.le]
  · subst h; simp
  · rw [if_neg (not_lt.mpr h.le), if_neg (not_le.mpr h)]

theorem pymax1_of_pos {n : Nat} (h : 1 ≤ n) : pymax1 n = n := by
  rw [pymax1, if_pos h]

theorem filter_contains_card (l₁ l₂ : List String) (h₁ : l₁.Nodup) :
    (l₁.filter (fun t => l₂.contains t)).length = (l₁.toFinset ∩ l₂.toFinset).card := by
  have hnd : (l₁.filter (fun t => l₂.contains t)).Nodup := h₁.filter _
  rw [← List.toFinset_card_of_nodup hnd]
  congr 1
  ext a
  simp [List.mem_filter, Finset.mem_inter]

/-- C2: the similarity score is 1 when the two normalizations agree and are
non-empty; otherwise it is 0 when either token set is empty; otherwise it
is the weighted blend (55 ratio + 25 partial-ratio + 20 balance)/100
computed on the sorted space-joined token sets, where balance is
min over both directions of the shared-token fraction times 100.  The two
rapidfuzz ratios are arbitrary collaborator functions. -/
theorem C2_similarity_formula :
    ∀ (base extra : String → String → ℚ) (q s : String),
      (normalizeQuestion q = normalizeQuestion s ∧ normalizeQuestion q ≠ "" →
        similarity base extra q s = 1) ∧
      (¬(normalizeQuestion q = normalizeQuestion s ∧ normalizeQuestion q ≠ "") →
        (tokensOf q = [] ∨ tokensOf s = []) →
        similarity base extra q s = 0) ∧
      (normalizeQuestion q ≠ normalizeQuestion s →
        tokensOf q ≠ [] → tokensOf s ≠ [] →
        similarity base extra q s =
          (0.55 * base (joinTokens (sortStrings (tokensOf q)))
                       (joinTokens (sortStrings (tokensOf s))) +
           0.25 * extra (joinTokens (sortStrings (tokensOf q)))
                        (joinTokens (sortStrings (tokensOf s))) +
           0.20 * (min
              ((((tokensOf q).toFinset ∩ (tokensOf s).toFinset).card : ℚ) /
                ((tokensOf q).length : ℚ))
              ((((tokensOf q).toFinset ∩ (tokensOf s).toFinset).card : ℚ) /
                ((tokensOf s).length : ℚ)) * 100)) / 100) := by
  intro base extra q s
  refine ⟨?_, ?_, ?_⟩
  · rintro ⟨heq, hne⟩
    rw [similarity, ← heq]
    simp [hne]
  · intro hna hemp
    rw [similarity]
    by_cases hq : normalizeQuestion q = ""
    · simp [hq]
    · by_cases hs : normalizeQuestion s = ""
      · simp [hq, hs]
      · have hneq : normalizeQuestion q ≠ normalizeQuestion s := fun h => hna ⟨h, hq⟩
        rw [if_neg (by simp [hq, hs]), if_neg hneq]
        rcases hemp with h | h <;> simp [h]
  · intro hneq hq hs
    have hnq : normalizeQuestion q ≠ "" := fun h => hq (tokensOf_of_norm_empty h)
    have hns : normalizeQuestion s ≠ "" := fun h => hs (tokensOf_of_norm_empty h)
    rw [similarity]
    rw [if_neg (by simp [hnq, hns]), if_neg hneq]
    have hqe : (tokensOf q).isEmpty = false := by
      cases h : tokensOf q with
      | nil => exact absurd h hq
      | cons a l => rfl
    have hse : (tokensOf s).isEmpty = false := by
      cases h : tokensOf s with
      | nil => exact absurd h hs
      | cons a l => rfl
    have hql : 1 ≤ (tokensOf q).length := List.length_pos.mpr hq
    have hsl : 1 ≤ (tokensOf s).length := List.length_pos.mpr hs
    simp only [hqe, hse, Bool.or_self, Bool.false_eq_true, if_false,
      qmin_eq_min, pymax1_of_pos hql, pymax1_of_pos hsl,
      filter_contains_card _ _ (tokensOf_nodup q),
      filter_contains_card _ _ (tokensOf_nodup s),
      Finset.inter_comm ((tokensOf s).toFinset) ((tokensOf q).toFinset)]

/-- Witness for C2: equal non-empty normalizations score exactly 1. -/
theorem C2_similarity_formula_witness :
    similarity (fun _ _ => 0) (fun _ _ => 0) "  Top  Hotels " "top hotels" = 1 :=
  (C2_similarity_formula (fun _ _ => 0) (fun _ _ => 0) "  Top  Hotels " "top hotels").1
    ⟨by decide, by decide⟩

theorem pyGet_append {α β : Type} [DecidableEq α] (a b : List (α × β)) (k : α) :
    pyGet (a ++ b) k =
      match pyGet a k with
      | some v => some v
      | none => pyGet b k := by
  induction a with
  | nil => rfl
  | cons p rest ih =>
      obtain ⟨k', v⟩ := p
      by_cases h : k' = k
      · simp [pyGet, h]
      · simp [pyGet, h, ih]

theorem pyGet_foldl_overlay (pv : List (String × Val)) (out : List (String × Val))
    (k : String) :
    pyGet (pv.foldl overlayStep out) k =
      match pyGet pv.reverse k with
      | some v => some v
      | none => pyGet out k := by
  induction pv generalizing out with
  | nil => rfl
  | cons p rest ih =>
      obtain ⟨k', v'⟩ := p
      simp only [List.foldl_cons, List.reverse_cons, ih, pyGet_append]
      cases h : pyGet rest.reverse k with
      | some v => simp [h]
      | none =>
          simp only [h, overlayStep]
          by_cases hk : k' = k
          · subst hk
            simp [pyGet_pySet_self, pyGet]
          · simp [pyGet_pySet_ne out k' k v' (fun he => hk he.symm), pyGet, hk]

theorem pyGet_foldl_default (ps : List (String × Val)) (out : List (String × Val))
    (k : String) :
    pyGet (ps.foldl defaultStep out) k =
      match declaredDefault ps k with
      | some d => some d
      | none => pyGet out k := by
  induction ps generalizing out with
  | nil => rfl
  | cons p rest ih =>
      obtain ⟨k', v⟩ := p
      simp only [List.foldl_cons, ih, declaredDefault]
      cases h : declaredDefault rest k with
      | some d => simp [h]
      | none =>
          simp only [h]
          by_cases hk : k = k'
          · subst hk
            cases v with
            | vdict sd =>
                cases hd : pyGet sd "default" with
                | some d => simp [defaultStep, hd, pyGet_pySet_self]
                | none => simp [defaultStep, hd]
            | vnull => simp [defaultStep]
            | vbool b => simp [defaultStep]
            | vint n => simp [defaultStep]
            | vstr s => simp [defaultStep]
            | vlist xs => simp [defaultStep]
          · cases v with
            | vdict sd =>
                cases hd : pyGet sd "default" with
                | some d => simp [defaultStep, hd, hk, pyGet_pySet_ne out k' k d hk]
                | none => simp [defaultStep, hd, hk]
            | vnull => simp [defaultStep, hk]
            | vbool b => simp [defaultStep, hk]
            | vint n => simp [defaultStep, hk]
            | vstr s => simp [defaultStep, hk]
            | vlist xs => simp [defaultStep, hk]

theorem pyGet_params_with_defaults (ps pv : List (String × Val)) (k : String) :
    pyGet (params_with_defaults ps pv) k =
      match pyGet pv.reverse k with
      | some v => some v
      | none => declaredDefault ps k := by
  unfold params_with_defaults
  rw [pyGet_foldl_overlay]
  cases h : pyGet pv.reverse k with
  | some v => rfl
  | none =>
      simp only []
      rw [pyGet_foldl_default]
      cases hd : declaredDefault ps k with
      | some d => simp
      | none => simp [pyGet]

theorem firstMissingRequired_eq_none_iff (pv l : List (String × Val)) :
    firstMissingRequired pv l = none ↔
      ∀ p ∈ l, ∀ sd, p.2 = Val.vdict sd →
        pyIsNone (pyGet sd "default") = true → pyHasKey pv p.1 = true := by
  induction l with
  | nil => simp [firstMissingRequired]
  | cons p rest ih =>
      obtain ⟨pname, spec⟩ := p
      cases spec with
      | vdict sd =>
          simp only [firstMissingRequired, List.forall_mem_cons]
          by_cases h1 : pyIsNone (pyGet sd "default") = true
          · by_cases h2 : pyHasKey pv pname = true
            · rw [if_neg (by simp [h2]), ih]
              simp [h2]
            · have h2' : pyHasKey pv pname = false := by
                cases hx : pyHasKey pv pname
                · rfl
                · exact absurd hx h2
              rw [if_pos (by simp [h1, h2'])]
              simp [h1, h2']
          · have h1' : pyIsNone (pyGet sd "default") = false := by
              cases hx : pyIsNone (pyGet sd "default")
              · rfl
              · exact absurd hx h1
            rw [if_neg (by simp [h1']), ih]
            simp [h1']
      | vnull => simp only [firstMissingRequired]; rw [ih]; simp
      | vbool b => simp only [firstMissingRequired]; rw [ih]; simp
      | vint n => simp only [firstMissingRequired]; rw [ih]; simp
      | vstr s => simp only [firstMissingRequired]; rw [ih]; simp
      | vlist xs => simp only [firstMissingRequired]; rw [ih]; simp

theorem firstMissingRequired_eq_some {pv l : List (String × Val)} {pname : String}
    (h : firstMissingRequired pv l = some pname) :
    ∃ sd, (pname, Val.vdict sd) ∈ l ∧ pyIsNone (pyGet sd "default") = true ∧
      pyHasKey pv pname = false := by
  induction l with
  | nil => simp [firstMissingRequired] at h
  | cons p rest ih =>
      obtain ⟨pn, spec⟩ := p
      cases spec with
      | vdict sd =>
          simp only [firstMissingRequired] at h
          by_cases hc : (pyIsNone (pyGet sd "default") && !(pyHasKey pv pn)) = true
          · rw [if_pos hc] at h
            injection h with h
            subst h
            have hc' : pyIsNone (pyGet sd "default") = true ∧ pyHasKey pv pn = false := by
              simpa using hc
            exact ⟨sd, List.mem_cons_self _ _, hc'.1, hc'.2⟩
          · rw [if_neg hc] at h
            obtain ⟨sd', hm, a, b⟩ := ih h
            exact ⟨sd', List.mem_cons_of_mem _ hm, a, b⟩
      | vnull =>
          obtain ⟨sd', hm, a, b⟩ := ih h
          exact ⟨sd', List.mem_cons_of_mem _ hm, a, b⟩
      | vbool bb =>
          obtain ⟨sd', hm, a, b⟩ := ih h
          exact ⟨sd', List.mem_cons_of_mem _ hm, a, b⟩
      | vint n =>
          obtain ⟨sd', hm, a, b⟩ := ih h
          exact ⟨sd', List.mem_cons_of_mem _ hm, a, b⟩
      | vstr s =>
          obtain ⟨sd', hm, a, b⟩ := ih h
          exact ⟨sd', List.mem_cons_of_mem _ hm, a, b⟩
      | vlist xs =>
          obtain ⟨sd', hm, a, b⟩ := ih h
          exact ⟨sd', List.mem_cons_of_mem _ hm, a, b⟩

theorem declaredDefault_eq_none_of_not_mem {ps : List (String × Val)} {k : String}
    (h : k ∉ ps.map Prod.fst) : declaredDefault ps k = none := by
  induction ps with
  | nil => rfl
  | cons p rest ih =>
      obtain ⟨k', v⟩ := p
      simp only [List.map_cons, List.mem_cons, not_or] at h
      simp [declaredDefault, ih h.2, h.1]

theorem declaredDefault_of_mem {ps : List (String × Val)} {k : String}
    {sd : List (String × Val)} (hnd : (ps.map Prod.fst).Nodup)
    (hm : (k, Val.vdict sd) ∈ ps) : declaredDefault ps k = pyGet sd "default" := by
  induction ps with
  | nil => cases hm
  | cons p rest ih =>
      obtain ⟨k', v⟩ := p
      simp only [List.map_cons, List.nodup_cons] at hnd
      rcases List.mem_cons.mp hm with heq | hm'
      · cases heq
        simp [declaredDefault, declaredDefault_eq_none_of_not_mem hnd.1]
      · have hk : k ≠ k' := by
          rintro rfl
          exact hnd.1 (List.mem_map_of_mem Prod.fst hm')
        simp only [declaredDefault, ih hnd.2 hm']
        cases hd : pyGet sd "default" with
        | some d => simp
        | none => simp [hk]

/-- C4: counterexample. A parameter declared with an explicit null default
(`default: null` present in the spec dict) is treated as REQUIRED by
validate_recipe_params — omitting it makes validation fail with the
missing-required-param error — even though params_with_defaults would fall
back to null for it. The claim's "parameter validation succeeds" is wrong
for explicit null defaults. -/
theorem C4_null_default_counterexample :
    (validate_recipe_params nullDefaultSpecEx []).1 = none ∧
    (validate_recipe_params nullDefaultSpecEx []).2 =
      error_json "missing required param: id" ∧
    params_with_defaults nullDefaultSpecEx [] = [("id", Val.vnull)] :=
  ⟨rfl, rfl, rfl⟩

/-- C4 (amended): validation succeeds iff every dict-valued parameter spec
whose default lookup is absent-or-null is provided; so a parameter with an
explicit null default behaves as required (omitting it yields the
missing-required-param error), while params_with_defaults does fall back to
the declared default — null included — for parameters not provided. -/
theorem C4_null_default_params (ps pv : List (String × Val)) :
    ((validate_recipe_params ps pv).1.isSome = true ↔
      ∀ p ∈ ps, ∀ sd, p.2 = Val.vdict sd →
        pyIsNone (pyGet sd "default") = true → pyHasKey pv p.1 = true) ∧
    (∀ k sd, (k, Val.vdict sd) ∈ ps → pyGet sd "default" = some Val.vnull →
      pyHasKey pv k = false → (validate_recipe_params ps pv).1 = none) ∧
    ((validate_recipe_params ps pv).1 = none →
      ∃ pname sd, (pname, Val.vdict sd) ∈ ps ∧
        pyIsNone (pyGet sd "default") = true ∧ pyHasKey pv pname = false ∧
        (validate_recipe_params ps pv).2 =
          error_json ("missing required param: " ++ pname)) ∧
    (∀ out, (validate_recipe_params ps pv).1 = some out →
      out = params_with_defaults ps pv) ∧
    (∀ k, pyGet (params_with_defaults ps pv) k =
      match pyGet pv.reverse k with
      | some v => some v
      | none => declaredDefault ps k) ∧
    (∀ k sd, (ps.map Prod.fst).Nodup → (k, Val.vdict sd) ∈ ps →
      pyGet pv.reverse k = none →
      pyGet (params_with_defaults ps pv) k = pyGet sd "default") := by
  refine ⟨?_, ?_, ?_, ?_, ?_, ?_⟩
  · cases hf : firstMissingRequired pv ps with
    | some pname =>
        obtain ⟨sd, hm, hni, hhk⟩ := firstMissingRequired_eq_some hf
        refine iff_of_false (by simp [validate_recipe_params, hf]) ?_
        intro hall
        have := hall (pname, .vdict sd) hm sd rfl hni
        rw [this] at hhk
        cases hhk
    | none =>
        refine iff_of_true (by simp [validate_recipe_params, hf]) ?_
        exact (firstMissingRequired_eq_none_iff pv ps).mp hf
  · intro k sd hm hdef hhk
    cases hf : firstMissingRequired pv ps with
    | some pname => simp [validate_recipe_params, hf]
    | none =>
        have := (firstMissingRequired_eq_none_iff pv ps).mp hf (k, .vdict sd) hm sd
          rfl (by simp [hdef, pyIsNone])
        rw [this] at hhk
        cases hhk
  · intro hnone
    cases hf : firstMissingRequired pv ps with
    | none => simp [validate_recipe_params, hf] at hnone
    | some pname =>
        obtain ⟨sd, hm, hni, hhk⟩ := firstMissingRequired_eq_some hf
        exact ⟨pname, sd, hm, hni, hhk, by simp [validate_recipe_params, hf]⟩
  · intro out hout
    cases hf : firstMissingRequired pv ps with
    | some pname => simp [validate_recipe_params, hf] at hout
    | none =>
        simp only [validate_recipe_params, hf] at hout
        exact (Option.some.inj hout).symm
  · exact fun k => pyGet_params_with_defaults ps pv k
  · intro k sd hnd hm hnone
    simp [pyGet_params_with_defaults, hnone, declaredDefault_of_mem hnd hm]

/-- Witness for C4: with spec id : \x7btype: int, default: null\x7d and the
parameter omitted, validation fails while the defaults merge yields null. -/
theorem C4_null_default_params_witness :
    (validate_recipe_params nullDefaultSpecEx [("other", Val.vint 1)]).1 = none ∧
    pyGet (params_with_defaults nullDefaultSpecEx [("other", Val.vint 1)]) "id" =
      some Val.vnull := by
  constructor
  · exact (C4_null_default_params nullDefaultSpecEx [("other", Val.vint 1)]).2.1 "id"
      [("type", Val.vstr "int"), ("default", Val.vnull)] (by decide) (by decide)
      (by decide)
  · have h := (C4_null_default_params nullDefaultSpecEx
      [("other", Val.vint 1)]).2.2.2.2.2 "id"
      [("type", Val.vstr "int"), ("default", Val.vnull)] (by decide) (by decide)
      (by decide)
    exact h.trans (by decide)

/-- C10: the equivalence validator is not total as a boolean function.  A
candidate that declares parameter x with no default and references it in a
template makes _validate_equivalence raise the missing-parameter KeyError
instead of returning false; the exception escapes extract_recipe
(accept_candidate propagates it) and only the orchestrator's catch-all
handler contains it, leaving the store untouched. -/
theorem C10_validator_not_total :
    validate_equivalence "rest" origStepsRaiseEx [] raisingStepCandidate =
      .error "missing param: x" ∧
    accept_candidate "rest" origStepsRaiseEx [] raisingStepCandidate =
      .error "missing param: x" ∧
    (∀ s : RecipeStore, ∀ rid : String, ∀ now : ℚ,
      maybe_extract_and_save_recipe true false "rest" "api" "q" origStepsRaiseEx []
        "schema" (fun _ => "h") (some raisingStepCandidate) s rid now = s) := by
  have hacc : accept_candidate "rest" origStepsRaiseEx [] raisingStepCandidate =
      .error "missing param: x" := by decide
  have hne : origStepsRaiseEx.isEmpty = false := rfl
  refine ⟨by decide, hacc, fun s rid now => ?_⟩
  simp [maybe_extract_and_save_recipe, hne, hacc]

/-- C6: when the step executor reports failure on any API step,
execute_recipe_steps aborts immediately: success is False, last data is
None, executed_sql is empty and the step's error is returned; the failing
step stops the API loop on the spot; the result is then independent of the
SQL collaborator (no SQL step is attempted); the two-step spec scenario
with an always-failing executor returns exactly that quadruple. -/
theorem C6_failure_abort :
    (∀ (exec : StepExec) (sqlExec : SqlExec) (recipe params : List (String × Val))
        (results0 : Results) (lastSlot0 : Option Val) (steps : List Val)
        (err : String) (res : Results) (ls : Option Val) (items : List Val),
      iterVal ((pyGet recipe "steps").getD (.vlist [])) = .ok steps →
      runApiSteps exec params steps 0 results0 lastSlot0 [] =
        .ok (.failed err res ls items) →
      execute_recipe_steps exec sqlExec recipe params results0 lastSlot0 =
        .ok ((false, Val.vnull, [], err), (res, ls, items))) ∧
    (∀ (exec : StepExec) (params : List (String × Val)) (st : Val) (rest : List Val)
        (idx : Nat) (results : Results) (lastSlot : Option Val) (items : List Val)
        (dat : Option Val) (err : String) (cr : Option Val) (results' : Results),
      exec idx st params results = .ok ((false, dat, err, cr), results') →
      runApiSteps exec params (st :: rest) idx results lastSlot items =
        .ok (.failed err results' lastSlot items.reverse)) ∧
    (∀ (exec : StepExec) (sqlExec sqlExec' : SqlExec)
        (recipe params : List (String × Val)) (results0 : Results)
        (lastSlot0 : Option Val) (steps : List Val) (err : String) (res : Results)
        (ls : Option Val) (items : List Val),
      iterVal ((pyGet recipe "steps").getD (.vlist [])) = .ok steps →
      runApiSteps exec params steps 0 results0 lastSlot0 [] =
        .ok (.failed err res ls items) →
      execute_recipe_steps exec sqlExec recipe params results0 lastSlot0 =
        execute_recipe_steps exec sqlExec' recipe params results0 lastSlot0) ∧
    (∀ sqlExec : SqlExec,
      execute_recipe_steps failExecEx sqlExec recipeTwoStepEx [] [] (some Val.vnull) =
        .ok ((false, Val.vnull, [], "step failed: boom"), ([], some Val.vnull, []))) := by
  have h1 : ∀ (exec : StepExec) (sqlExec : SqlExec)
      (recipe params : List (String × Val)) (results0 : Results)
      (lastSlot0 : Option Val) (steps : List Val) (err : String) (res : Results)
      (ls : Option Val) (items : List Val),
      iterVal ((pyGet recipe "steps").getD (.vlist [])) = .ok steps →
      runApiSteps exec params steps 0 results0 lastSlot0 [] =
        .ok (.failed err res ls items) →
      execute_recipe_steps exec sqlExec recipe params results0 lastSlot0 =
        .ok ((false, Val.vnull, [], err), (res, ls, items)) := by
    intro exec sqlExec recipe params results0 lastSlot0 steps err res ls items hit hrun
    simp [execute_recipe_steps, hit, hrun, bind, Except.bind]
  refine ⟨h1, ?_, ?_, ?_⟩
  · intro exec params st rest idx results lastSlot items dat err cr results' hx
    simp [runApiSteps, hx, bind, Except.bind]
  · intro exec sqlExec sqlExec' recipe params results0 lastSlot0 steps err res ls
      items hit hrun
    rw [h1 exec sqlExec recipe params results0 lastSlot0 steps err res ls items hit hrun,
        h1 exec sqlExec' recipe params results0 lastSlot0 steps err res ls items hit hrun]
  · intro sqlExec
    rfl

/-- Witness for C6: the always-failing executor stops the API loop at its
single step with the propagated error. -/
theorem C6_failure_abort_witness :
    runApiSteps failExecEx [] [Val.vdict [("kind", Val.vstr "rest")]] 0 []
      (some Val.vnull) [] =
      .ok (.failed "step failed: boom" [] (some Val.vnull) []) :=
  C6_failure_abort.2.1 failExecEx [] (Val.vdict [("kind", Val.vstr "rest")]) [] 0 []
    (some Val.vnull) [] none "step failed: boom" none [] (by rfl)

theorem find_used_params_set_params (cand : List (String × Val)) (v : Val)
    (apiType : String) :
    find_used_params (pySet cand "params" v) apiType = find_used_params cand apiType := by
  unfold find_used_params
  rw [pyGet_pySet_ne cand "params" "sql_steps" v (by decide),
      pyGet_pySet_ne cand "params" "steps" v (by decide)]

theorem filter_contains_keys_toFinset (entries : List (String × Val))
    (used : List String)
    (hsub : used.toFinset ⊆ (entries.map Prod.fst).toFinset) :
    (((entries.filter fun kv => used.contains kv.1).map Prod.fst).toFinset :
        Finset String) = used.toFinset := by
  ext x
  simp only [List.mem_toFinset, List.mem_map, List.mem_filter]
  constructor
  · rintro ⟨kv, ⟨hm, hc⟩, rfl⟩
    simpa using hc
  · intro hx
    have hxk := hsub (List.mem_toFinset.mpr hx)
    obtain ⟨kv, hm, he⟩ := List.mem_map.mp (List.mem_toFinset.mp hxk)
    exact ⟨kv, ⟨hm, by simp [he, hx]⟩, he⟩

theorem normalizedParams (cand0 : List (String × Val)) :
    ∃ ps, pyGet (match pyGet cand0 "params" with
      | some (.vdict _) => cand0
      | _ => pySet cand0 "params" (.vdict [])) "params" = some (Val.vdict ps) := by
  cases hq : pyGet cand0 "params" with
  | none => exact ⟨[], by simp [hq, pyGet_pySet_self]⟩
  | some v =>
      cases v with
      | vdict es => exact ⟨es, by simp [hq]⟩
      | vnull => exact ⟨[], by simp [hq, pyGet_pySet_self]⟩
      | vbool b => exact ⟨[], by simp [hq, pyGet_pySet_self]⟩
      | vint n => exact ⟨[], by simp [hq, pyGet_pySet_self]⟩
      | vstr s => exact ⟨[], by simp [hq, pyGet_pySet_self]⟩
      | vlist xs => exact ⟨[], by simp [hq, pyGet_pySet_self]⟩

theorem acceptTail_accepts {apiType : String} {steps : List (List (String × Val))}
    {sqls : List String} {cand r ps : List (String × Val)}
    (hps : pyGet cand "params" = some (.vdict ps))
    (h : acceptTail apiType steps sqls cand = .ok (some r)) :
    ∃ usedList ps',
      find_used_params r apiType = .ok usedList ∧
      pyGet r "params" = some (.vdict ps') ∧
      (ps'.map Prod.fst).toFinset = usedList.toFinset := by
  rcases hto : (pyGet cand "tool_name").getD (.vstr "") with _ | b | n | tn | xs | es
  case vnull => simp [acceptTail, hto, pure, Except.pure] at h
  case vbool => simp [acceptTail, hto, pure, Except.pure] at h
  case vint => simp [acceptTail, hto, pure, Except.pure] at h
  case vlist => simp [acceptTail, hto, pure, Except.pure] at h
  case vdict => simp [acceptTail, hto, pure, Except.pure] at h
  case vstr =>
    by_cases htn : tn = ""
    · simp [acceptTail, hto, htn, pure, Except.pure, bind, Except.bind] at h
    · cases hvt : validToolName tn with
      | false => simp [acceptTail, hto, htn, hvt, pure, Except.pure, bind, Except.bind] at h
      | true =>
          cases hfu : find_used_params cand apiType with
          | error e =>
              simp [acceptTail, hto, htn, hvt, hps, hfu, bind, Except.bind, pure, Except.pure] at h
          | ok usedList =>
              simp only [acceptTail, hto, htn, hvt, hps, hfu, bind, Except.bind, pure, Except.pure,
                if_neg htn, Bool.not_true, Bool.false_eq_true, if_false] at h
              split at h
              · exact absurd h (by simp [pure, Except.pure])
              · split at h
                · split at h
                  · exact absurd h (by simp [pure, Except.pure])
                  · rename_i hne hsubb
                    split at h
                    · exact absurd h (by simp [pure, Except.pure])
                    · rename_i b hv
                      split at h
                      · have hr : r = pySet cand "params"
                            (.vdict (ps.filter fun kv => usedList.contains kv.1)) := by
                          simpa [pure, Except.pure, eq_comm] using h
                        subst hr
                        refine ⟨usedList,
                          ps.filter fun kv => usedList.contains kv.1, ?_, ?_, ?_⟩
                        · rw [find_used_params_set_params]; exact hfu
                        · exact pyGet_pySet_self _ _ _
                        · refine filter_contains_keys_toFinset ps usedList ?_
                          simpa using hsubb
                      · exact absurd h (by simp [pure, Except.pure])
                · rename_i heq
                  split at h
                  · exact absurd h (by simp [pure, Except.pure])
                  · rename_i b hv
                    split at h
                    · have hr : r = cand := by simpa [pure, Except.pure, eq_comm] using h
                      subst hr
                      refine ⟨usedList, ps, hfu, hps, ?_⟩
                      simpa using heq
                    · exact absurd h (by simp [pure, Except.pure])

theorem acceptTail_rejects_unused {apiType : String}
    {steps : List (List (String × Val))} {sqls : List String}
    {cand ps : List (String × Val)}
    (hps : pyGet cand "params" = some (.vdict ps)) (hne : ps ≠ [])
    (hfu : find_used_params cand apiType = .ok []) :
    acceptTail apiType steps sqls cand = .ok none := by
  rcases hto : (pyGet cand "tool_name").getD (.vstr "") with _ | b | n | tn | xs | es
  case vnull => simp [acceptTail, hto, pure, Except.pure]
  case vbool => simp [acceptTail, hto, pure, Except.pure]
  case vint => simp [acceptTail, hto, pure, Except.pure]
  case vlist => simp [acceptTail, hto, pure, Except.pure]
  case vdict => simp [acceptTail, hto, pure, Except.pure]
  case vstr =>
    by_cases htn : tn = ""
    · simp [acceptTail, hto, htn, pure, Except.pure, bind, Except.bind]
    · cases hvt : validToolName tn with
      | false => simp [acceptTail, hto, htn, hvt, pure, Except.pure, bind, Except.bind]
      | true =>
          have hdne : ((ps.map Prod.fst).toFinset : Finset String) ≠ ∅ := by
            cases hp : ps with
            | nil => exact absurd hp hne
            | cons a l => simp [hp]
          simp [acceptTail, hto, htn, hvt, hps, hfu, bind, Except.bind, pure, Except.pure, hdne]

theorem acceptTail_rejects_undeclared {apiType : String}
    {steps : List (List (String × Val))} {sqls : List String}
    {cand ps : List (String × Val)} {usedList : List String} {x : String}
    (hps : pyGet cand "params" = some (.vdict ps))
    (hfu : find_used_params cand apiType = .ok usedList)
    (hx : x ∈ usedList) (hnd : x ∉ ps.map Prod.fst) :
    acceptTail apiType steps sqls cand = .ok none := by
  rcases hto : (pyGet cand "tool_name").getD (.vstr "") with _ | b | n | tn | xs | es
  case vnull => simp [acceptTail, hto, pure, Except.pure]
  case vbool => simp [acceptTail, hto, pure, Except.pure]
  case vint => simp [acceptTail, hto, pure, Except.pure]
  case vlist => simp [acceptTail, hto, pure, Except.pure]
  case vdict => simp [acceptTail, hto, pure, Except.pure]
  case vstr =>
    by_cases htn : tn = ""
    · simp [acceptTail, hto, htn, pure, Except.pure, bind, Except.bind]
    · cases hvt : validToolName tn with
      | false => simp [acceptTail, hto, htn, hvt, pure, Except.pure, bind, Except.bind]
      | true =>
          have huse : usedList.toFinset ≠ (∅ : Finset String) := by
            intro hemp
            exact absurd (List.mem_toFinset.mpr hx) (by simp [hemp])
          have hnsub : ¬(usedList.toFinset ⊆ (ps.map Prod.fst).toFinset) := by
            intro hs
            exact hnd (by simpa using hs (List.mem_toFinset.mpr hx))
          have hneq : ((ps.map Prod.fst).toFinset : Finset String) ≠
              usedList.toFinset := by
            intro he
            exact hnsub (by rw [he])
          simp [acceptTail, hto, htn, hvt, hps, hfu, bind, Except.bind, pure, Except.pure,
            huse, hneq, hnsub]

theorem acceptTail_prunes {apiType : String} {steps : List (List (String × Val))}
    {sqls : List String} {cand ps r : List (String × Val)} {usedList : List String}
    (hps : pyGet cand "params" = some (.vdict ps))
    (hfu : find_used_params cand apiType = .ok usedList)
    (hne : ((ps.map Prod.fst).toFinset : Finset String) ≠ usedList.toFinset)
    (h : acceptTail apiType steps sqls cand = .ok (some r)) :
    r = pySet cand "params" (.vdict (ps.filter fun kv => usedList.contains kv.1)) := by
  rcases hto : (pyGet cand "tool_name").getD (.vstr "") with _ | b | n | tn | xs | es
  case vnull => simp [acceptTail, hto, pure, Except.pure] at h
  case vbool => simp [acceptTail, hto, pure, Except.pure] at h
  case vint => simp [acceptTail, hto, pure, Except.pure] at h
  case vlist => simp [acceptTail, hto, pure, Except.pure] at h
  case vdict => simp [acceptTail, hto, pure, Except.pure] at h
  case vstr =>
    by_cases htn : tn = ""
    · simp [acceptTail, hto, htn, pure, Except.pure, bind, Except.bind] at h
    · cases hvt : validToolName tn with
      | false => simp [acceptTail, hto, htn, hvt, pure, Except.pure, bind, Except.bind] at h
      | true =>
          simp only [acceptTail, hto, htn, hvt, hps, hfu, bind, Except.bind, pure, Except.pure,
            if_neg htn, Bool.not_true, Bool.false_eq_true, if_false] at h
          split at h
          · exact absurd h (by simp [pure, Except.pure])
          · split at h
            · exact absurd h (by simp [pure, Except.pure])
            · split at h
              · exact absurd h (by simp [pure, Except.pure])
              · split at h
                · simpa [pure, Except.pure, eq_comm] using h
                · exact absurd h (by simp [pure, Except.pure])

/-- C5: parameter consistency of extraction.  Every accepted candidate has
its declared parameter-name set exactly equal to the referenced-name set of
its templates; a candidate whose declared parameters are never referenced
is rejected; a candidate referencing an undeclared name is rejected; and
when the declared set strictly contains the referenced set, the accepted
recipe's params map is the declared map pruned to the referenced names. -/
theorem C5_param_consistency :
    (∀ (apiType : String) (steps : List (List (String × Val))) (sqls : List String)
        (cand0 r : List (String × Val)),
      accept_candidate apiType steps sqls cand0 = .ok (some r) →
      ∃ usedList ps',
        find_used_params r apiType = .ok usedList ∧
        pyGet r "params" = some (.vdict ps') ∧
        (ps'.map Prod.fst).toFinset = usedList.toFinset) ∧
    (∀ (apiType : String) (steps : List (List (String × Val))) (sqls : List String)
        (cand0 ps : List (String × Val)),
      pyGet cand0 "params" = some (.vdict ps) → ps ≠ [] →
      find_used_params cand0 apiType = .ok [] →
      accept_candidate apiType steps sqls cand0 = .ok none) ∧
    (∀ (apiType : String) (steps : List (List (String × Val))) (sqls : List String)
        (cand0 ps : List (String × Val)) (usedList : List String) (x : String),
      pyGet cand0 "params" = some (.vdict ps) →
      find_used_params cand0 apiType = .ok usedList →
      x ∈ usedList → x ∉ ps.map Prod.fst →
      accept_candidate apiType steps sqls cand0 = .ok none) ∧
    (∀ (apiType : String) (steps : List (List (String × Val))) (sqls : List String)
        (cand0 ps r : List (String × Val)) (usedList : List String),
      pyGet cand0 "params" = some (.vdict ps) →
      find_used_params cand0 apiType = .ok usedList →
      (ps.map Prod.fst).toFinset ≠ usedList.toFinset →
      accept_candidate apiType steps sqls cand0 = .ok (some r) →
      r = pySet cand0 "params"
        (.vdict (ps.filter fun kv => usedList.contains kv.1))) := by
  refine ⟨?_, ?_, ?_, ?_⟩
  · intro apiType steps sqls cand0 r h
    cases hc : (!(pyHasKey cand0 "steps") || !(pyHasKey cand0 "sql_steps")) with
    | true => simp [accept_candidate, hc, pure, Except.pure] at h
    | false =>
        simp only [accept_candidate, hc, Bool.false_eq_true, if_false] at h
        obtain ⟨ps, hps⟩ := normalizedParams cand0
        exact acceptTail_accepts hps h
  · intro apiType steps sqls cand0 ps hps hne hfu
    cases hc : (!(pyHasKey cand0 "steps") || !(pyHasKey cand0 "sql_steps")) with
    | true => simp [accept_candidate, hc, pure, Except.pure]
    | false =>
        simp only [accept_candidate, hc, Bool.false_eq_true, if_false, hps]
        exact acceptTail_rejects_unused hps hne hfu
  · intro apiType steps sqls cand0 ps usedList x hps hfu hx hnd
    cases hc : (!(pyHasKey cand0 "steps") || !(pyHasKey cand0 "sql_steps")) with
    | true => simp [accept_candidate, hc, pure, Except.pure]
    | false =>
        simp only [accept_candidate, hc, Bool.false_eq_true, if_false, hps]
        exact acceptTail_rejects_undeclared hps hfu hx hnd
  · intro apiType steps sqls cand0 ps r usedList hps hfu hne h
    cases hc : (!(pyHasKey cand0 "steps") || !(pyHasKey cand0 "sql_steps")) with
    | true => simp [accept_candidate, hc, pure, Except.pure] at h
    | false =>
        simp only [accept_candidate, hc, Bool.false_eq_true, if_false, hps] at h
        exact acceptTail_prunes hps hfu hne h

/-- Witness for C5: the concrete candidate referencing undeclared x is
rejected. -/
theorem C5_param_consistency_witness :
    accept_candidate "rest" origStepsKindEx [] kindMismatchCandidate = .ok none :=
  C5_param_consistency.2.2.1 "rest" origStepsKindEx [] kindMismatchCandidate []
    ["x"] "x" (by decide) (by decide) (by decide) (by decide)

theorem validateStepsLoop_ok_true_iff (apiType : String)
    (params : List (String × Val)) :
    ∀ os : List (List (String × Val)), ∀ rs : List Val, os.length = rs.length →
      (validateStepsLoop apiType params os rs = .ok true ↔
        List.Forall₂ (stepReproduces apiType params) os rs) := by
  intro os
  induction os with
  | nil =>
      intro rs hlen
      cases rs with
      | nil => simp [validateStepsLoop]
      | cons r rs => simp at hlen
  | cons orig os ih =>
      intro rs hlen
      cases rs with
      | nil => simp at hlen
      | cons rec rs =>
          have hlen' : os.length = rs.length := by simpa using hlen
          cases rec with
          | vdict rd =>
              by_cases hk : pyGet rd "kind" ≠ pyGet orig "kind"
              · simp only [validateStepsLoop, if_pos hk]
                refine iff_of_false (by simp) ?_
                intro hf
                obtain ⟨rd', hrd, hkind, hval⟩ := (List.forall₂_cons.mp hf).1
                injection hrd with he
                subst he
                exact hk hkind
              · simp only [validateStepsLoop, if_neg hk]
                cases hv : (if apiType = "graphql" then validate_step_graphql orig rd params
                    else validate_step_rest orig rd params) with
                | error e =>
                    simp only [hv, bind, Except.bind]
                    refine iff_of_false (by simp) ?_
                    intro hf
                    obtain ⟨rd', hrd, hkind, hval⟩ := (List.forall₂_cons.mp hf).1
                    injection hrd with he
                    subst he
                    have hval' : (if apiType = "graphql" then
                        validate_step_graphql orig rd params
                        else validate_step_rest orig rd params) = .ok true := by
                      by_cases hapi : apiType = "graphql" <;>
                        simp only [hapi, if_pos, if_neg, if_true, if_false] <;>
                        simpa [hapi] using hval
                    rw [hv] at hval'
                    cases hval'
                | ok b =>
                    cases b with
                    | true =>
                        simp only [hv, bind, Except.bind, eq_self_iff_true, if_true]
                        rw [ih rs hlen']
                        constructor
                        · intro hf
                          refine List.forall₂_cons.mpr ⟨⟨rd, rfl, not_not.mp hk, ?_⟩, hf⟩
                          by_cases hapi : apiType = "graphql" <;> simpa [hapi] using hv
                        · intro hf
                          exact (List.forall₂_cons.mp hf).2
                    | false =>
                        simp only [hv, bind, Except.bind]
                        refine iff_of_false (by simp) ?_
                        intro hf
                        obtain ⟨rd', hrd, hkind, hval⟩ := (List.forall₂_cons.mp hf).1
                        injection hrd with he
                        subst he
                        have hval' : (if apiType = "graphql" then
                            validate_step_graphql orig rd params
                            else validate_step_rest orig rd params) = .ok true := by
                          by_cases hapi : apiType = "graphql" <;> simpa [hapi] using hval
                        rw [hv] at hval'
                        cases hval'
          | vnull =>
              simp only [validateStepsLoop]
              refine iff_of_false (by simp) ?_
              intro hf
              obtain ⟨rd', hrd, _, _⟩ := (List.forall₂_cons.mp hf).1
              cases hrd
          | vbool b =>
              simp only [validateStepsLoop]
              refine iff_of_false (by simp) ?_
              intro hf
              obtain ⟨rd', hrd, _, _⟩ := (List.forall₂_cons.mp hf).1
              cases hrd
          | vint n =>
              simp only [validateStepsLoop]
              refine iff_of_false (by simp) ?_
              intro hf
              obtain ⟨rd', hrd, _, _⟩ := (List.forall₂_cons.mp hf).1
              cases hrd
          | vstr s =>
              simp only [validateStepsLoop]
              refine iff_of_false (by simp) ?_
              intro hf
              obtain ⟨rd', hrd, _, _⟩ := (List.forall₂_cons.mp hf).1
              cases hrd
          | vlist xs =>
              simp only [validateStepsLoop]
              refine iff_of_false (by simp) ?_
              intro hf
              obtain ⟨rd', hrd, _, _⟩ := (List.forall₂_cons.mp hf).1
              cases hrd

theorem validateSqlLoop_ok_true_iff (params : List (String × Val)) :
    ∀ os : List String, ∀ rs : List Val, os.length = rs.length →
      (validateSqlLoop params os rs = .ok true ↔
        List.Forall₂ (sqlReproduces params) os rs) := by
  intro os
  induction os with
  | nil =>
      intro rs hlen
      cases rs with
      | nil => simp [validateSqlLoop]
      | cons r rs => simp at hlen
  | cons o os ih =>
      intro rs hlen
      cases rs with
      | nil => simp at hlen
      | cons rec rs =>
          have hlen' : os.length = rs.length := by simpa using hlen
          cases rec with
          | vstr tmpl =>
              simp only [validateSqlLoop]
              cases hr : render_text_template tmpl params with
              | error e =>
                  simp only [hr, bind, Except.bind]
                  refine iff_of_false (by simp) ?_
                  intro hf
                  obtain ⟨t, s', hts, hrend, _⟩ := (List.forall₂_cons.mp hf).1
                  injection hts with he
                  subst he
                  rw [hr] at hrend
                  cases hrend
              | ok s =>
                  simp only [hr, bind, Except.bind]
                  by_cases hn : normalize_ws s = normalize_ws o
                  · rw [if_pos hn, ih rs hlen']
                    constructor
                    · intro hf
                      exact List.forall₂_cons.mpr ⟨⟨tmpl, s, rfl, hr, hn⟩, hf⟩
                    · intro hf
                      exact (List.forall₂_cons.mp hf).2
                  · rw [if_neg hn]
                    refine iff_of_false (by simp) ?_
                    intro hf
                    obtain ⟨t, s', hts, hrend, hnorm⟩ := (List.forall₂_cons.mp hf).1
                    injection hts with he
                    subst he
                    rw [hr] at hrend
                    injection hrend with he2
                    subst he2
                    exact hn hnorm
          | vnull =>
              simp only [validateSqlLoop]
              refine iff_of_false (by simp) ?_
              intro hf
              obtain ⟨t, s', hts, _, _⟩ := (List.forall₂_cons.mp hf).1
              cases hts
          | vbool b =>
              simp only [validateSqlLoop]
              refine iff_of_false (by simp) ?_
              intro hf
              obtain ⟨t, s', hts, _, _⟩ := (List.forall₂_cons.mp hf).1
              cases hts
          | vint n =>
              simp only [validateSqlLoop]
              refine iff_of_false (by simp) ?_
              intro hf
              obtain ⟨t, s', hts, _, _⟩ := (List.forall₂_cons.mp hf).1
              cases hts
          | vlist xs =>
              simp only [validateSqlLoop]
              refine iff_of_false (by simp) ?_
              intro hf
              obtain ⟨t, s', hts, _, _⟩ := (List.forall₂_cons.mp hf).1
              cases hts
          | vdict es =>
              simp only [validateSqlLoop]
              refine iff_of_false (by simp) ?_
              intro hf
              obtain ⟨t, s', hts, _, _⟩ := (List.forall₂_cons.mp hf).1
              cases hts

theorem validate_equivalence_eq (apiType : String)
    (original_steps : List (List (String × Val))) (original_sql : List String)
    (recipe : List (String × Val)) :
    validate_equivalence apiType original_steps original_sql recipe =
      (match pyGet recipe "steps", pyGet recipe "sql_steps" with
       | some (.vlist r_steps), some (.vlist r_sql) =>
           if r_steps.length ≠ original_steps.length
               || r_sql.length ≠ original_sql.length then .ok false
           else do
             let ok ← validateStepsLoop apiType (effDefaults recipe)
               original_steps r_steps
             if !ok then .ok false
             else validateSqlLoop (effDefaults recipe) original_sql r_sql
       | _, _ => .ok false) := rfl

/-- C1 (amended): validate_equivalence decides reproduction of the original
trace under the recipe's declared defaults — returning ok true exactly on
the specification-side equivalence, ok false on any step-count or SQL-count
mismatch, and ok false at a kind mismatch PROVIDED every earlier step
validated without raising (the per-step validator renders templates first,
so a missing-parameter exception can preempt a later kind check); the
concrete default-10 scenario validates and the default-5 variant is
refused. -/
theorem C1_validate_equivalence :
    (∀ (apiType : String) (original_steps : List (List (String × Val)))
        (original_sql : List String) (recipe : List (String × Val)),
      validate_equivalence apiType original_steps original_sql recipe = .ok true ↔
        equivSpec apiType original_steps original_sql recipe) ∧
    (∀ (apiType : String) (original_steps : List (List (String × Val)))
        (original_sql : List String) (recipe : List (String × Val))
        (r_steps r_sql : List Val),
      pyGet recipe "steps" = some (.vlist r_steps) →
      pyGet recipe "sql_steps" = some (.vlist r_sql) →
      (r_steps.length ≠ original_steps.length ∨
        r_sql.length ≠ original_sql.length) →
      validate_equivalence apiType original_steps original_sql recipe = .ok false) ∧
    (∀ (apiType : String) (params orig rd : List (String × Val))
        (os : List (List (String × Val))) (rs : List Val),
      pyGet rd "kind" ≠ pyGet orig "kind" →
      validateStepsLoop apiType params (orig :: os) (.vdict rd :: rs) = .ok false) ∧
    (∀ (apiType : String) (params orig rd : List (String × Val))
        (os : List (List (String × Val))) (rs : List Val),
      pyGet rd "kind" = pyGet orig "kind" →
      (if apiType = "graphql" then validate_step_graphql orig rd params
       else validate_step_rest orig rd params) = .ok true →
      validateStepsLoop apiType params (orig :: os) (.vdict rd :: rs) =
        validateStepsLoop apiType params os rs) ∧
    validate_equivalence "rest" [origStepEx] [] (recipeEx 10) = .ok true ∧
    validate_equivalence "rest" [origStepEx] [] (recipeEx 5) = .ok false := by
  refine ⟨?_, ?_, ?_, ?_, by decide, by decide⟩
  · intro apiType os sql recipe
    constructor
    · intro h
      rw [validate_equivalence_eq] at h
      split at h
      · rename_i r_steps r_sql heq1 heq2
        split at h
        · exact absurd h (by simp)
        · rename_i hlen
          obtain ⟨hl1, hl2⟩ : r_steps.length = os.length ∧
              r_sql.length = sql.length := by
            simpa [not_or] using hlen
          simp only [bind, Except.bind] at h
          split at h
          · exact absurd h (by simp)
          · rename_i v hsl
            cases v with
            | false => simp at h
            | true =>
                simp only [Bool.not_true, Bool.false_eq_true, if_false] at h
                exact ⟨r_steps, r_sql, heq1, heq2, hl1, hl2,
                  (validateStepsLoop_ok_true_iff apiType (effDefaults recipe) os
                    r_steps hl1.symm).mp hsl,
                  (validateSqlLoop_ok_true_iff (effDefaults recipe) sql
                    r_sql hl2.symm).mp h⟩
      · exact absurd h (by simp)
    · rintro ⟨r_steps, r_sql, h1, h2, hl1, hl2, hf1, hf2⟩
      have hs1 : validateStepsLoop apiType (effDefaults recipe) os r_steps =
          .ok true :=
        (validateStepsLoop_ok_true_iff apiType (effDefaults recipe) os
          r_steps hl1.symm).mpr hf1
      have hs2 : validateSqlLoop (effDefaults recipe) sql r_sql = .ok true :=
        (validateSqlLoop_ok_true_iff (effDefaults recipe) sql
          r_sql hl2.symm).mpr hf2
      rw [validate_equivalence_eq]
      simp [h1, h2, hl1, hl2, hs1, hs2, bind, Except.bind]
  · intro apiType os sql recipe r_steps r_sql h1 h2 h3
    rw [validate_equivalence_eq]
    simp only [h1, h2]
    rcases h3 with h | h <;> simp [h]
  · intro apiType params orig rd os rs hk
    simp [validateStepsLoop, hk]
  · intro apiType params orig rd os rs hke hv
    simp [validateStepsLoop, hke, hv, bind, Except.bind]

/-- C1: counterexample to the unqualified kind-mismatch sentence.  The
candidate's second step has kind graphql against an original kind rest, yet
validate_equivalence raises the missing-parameter error from the first
step's rendering instead of returning false. -/
theorem C1_kind_mismatch_counterexample :
    validate_equivalence "rest" origStepsKindEx [] kindMismatchCandidate =
      .error "missing param: x" ∧
    ∃ rs, pyGet kindMismatchCandidate "steps" = some (.vlist rs) ∧
      rs.length = origStepsKindEx.length ∧
      ∃ rd, rs[1]? = some (.vdict rd) ∧
        ∃ o, origStepsKindEx[1]? = some o ∧ pyGet rd "kind" ≠ pyGet o "kind" := by
  refine ⟨by decide,
    [.vdict [("kind", .vstr "rest"), ("name", .vstr "a"), ("method", .vstr "GET"),
       ("path", .vstr "/a"),
       ("query_params", .vdict [("q", .vdict [("$param", .vstr "x")])])],
     .vdict [("kind", .vstr "graphql"), ("name", .vstr "b")]],
    by decide, by decide,
    [("kind", .vstr "graphql"), ("name", .vstr "b")], by decide,
    [("kind", .vstr "rest"), ("name", .vstr "b"), ("method", .vstr "GET"),
     ("path", .vstr "/b")], by decide, by decide⟩

/-- Witness for C1: a head step whose kind differs makes the per-step loop
return false immediately. -/
theorem C1_validate_equivalence_witness :
    validateStepsLoop "rest" [] [origStepEx]
      [Val.vdict [("kind", Val.vstr "graphql")]] = .ok false :=
  C1_validate_equivalence.2.2.1 "rest" [] origStepEx
    [("kind", Val.vstr "graphql")] [] [] (by decide)

/-- C8: counterexample.  The copies taken by save_recipe and get_recipe are
SHALLOW (Python dict(...)): after saving the scenario recipe and reading it
back, the returned object (address 3) is a fresh top-level dict but shares
the nested steps list (address 0) with the stored copy (address 2), so the
caller's append through the returned object changes the recipe held in the
store — refuting the any-mutation-including-nested-structures sentence. -/
theorem C8_defensive_copy_counterexample :
    savedEx.1 = [("r1", 2)] ∧
    gotEx.1 = some 3 ∧
    (3 : Nat) ≠ 2 ∧
    heapGet gotEx.2 3 = some (.cdict [("steps", .pref 0)]) ∧
    heapGet gotEx.2 2 = some (.cdict [("steps", .pref 0)]) ∧
    materialize gotEx.2 2 (.pref 2) = .vdict [("steps", .vlist [])] ∧
    materialize mutatedEx 2 (.pref 2) = .vdict [("steps", .vlist [.vint 1])] := by
  refine ⟨rfl, rfl, by decide, rfl, rfl, rfl, rfl⟩

/-- C8 (amended): get_recipe returns None (not an error) for unknown ids
and the stored recipe value for known ids; at heap level the returned
object is a fresh top-level copy — a new address whose cell holds the same
entries — and neither taking the copy nor mutating the copied top-level
cell changes any pre-existing cell (in particular the stored recipe's
top-level dict).  The guarantee is only top-level: nested containers are
shared, as the counterexample shows. -/
theorem C8_defensive_copy :
    (∀ (s : RecipeStore) (rid : String) (now : ℚ),
      pyGet s.records rid = none → get_recipe s rid now = (none, s)) ∧
    (∀ (s : RecipeStore) (rid : String) (now : ℚ) (rec : RecipeRecord),
      pyGet s.records rid = some rec → (get_recipe s rid now).1 = some rec.recipe) ∧
    (∀ (h : PyHeap) (store : List (String × Nat)) (rid : String) (a : Nat)
        (es : List (String × PyVal)),
      pyGet store rid = some a → heapGet h a = some (.cdict es) →
      (get_recipe_heap h store rid).1 = some h.next ∧
      heapGet (get_recipe_heap h store rid).2 h.next = some (.cdict es) ∧
      (∀ b, b < h.next → heapGet (get_recipe_heap h store rid).2 b = heapGet h b) ∧
      (∀ (cnew : PyCell) (b : Nat), b < h.next →
        heapGet (heapSet (get_recipe_heap h store rid).2 h.next cnew) b =
          heapGet h b)) ∧
    (∀ (h : PyHeap) (store : List (String × Nat)) (rid : String),
      pyGet store rid = none → get_recipe_heap h store rid = (none, h)) := by
  refine ⟨?_, ?_, ?_, ?_⟩
  · intro s rid now hn
    simp [get_recipe, hn]
  · intro s rid now rec hn
    simp [get_recipe, hn]
  · intro h store rid a es hst hcell
    have hcopy : dictShallowCopy h a = some (h.next,
        { cells := pySet h.cells h.next (.cdict es), next := h.next + 1 }) := by
      simp [dictShallowCopy, hcell, halloc]
    refine ⟨?_, ?_, ?_, ?_⟩
    · simp [get_recipe_heap, hst, hcopy]
    · simp [get_recipe_heap, hst, hcopy, heapGet, pyGet_pySet_self]
    · intro b hb
      simp [get_recipe_heap, hst, hcopy, heapGet,
        pyGet_pySet_ne h.cells h.next b (.cdict es) (Nat.ne_of_lt hb)]
    · intro cnew b hb
      simp [get_recipe_heap, hst, hcopy, heapSet, heapGet,
        pyGet_pySet_ne _ h.next b cnew (Nat.ne_of_lt hb),
        pyGet_pySet_ne h.cells h.next b (.cdict es) (Nat.ne_of_lt hb)]
  · intro h store rid hn
    simp [get_recipe_heap, hn]

/-- Witness for C8: reading r1 back from the saved scenario heap yields the
fresh address and leaves the stored recipe's cell untouched. -/
theorem C8_defensive_copy_witness :
    (get_recipe_heap savedEx.2 savedEx.1 "r1").1 = some savedEx.2.next ∧
    heapGet (get_recipe_heap savedEx.2 savedEx.1 "r1").2 2 = heapGet savedEx.2 2 := by
  have h := C8_defensive_copy.2.2.1 savedEx.2 savedEx.1 "r1" 2
    [("steps", PyVal.pref 0)] (by decide) (by decide)
  exact ⟨h.1, h.2.2.1 2 (by decide)⟩

/-- C9: a stored recipe is served only under its saved (api_id,
schema_hash) pair.  When the stored pair differs from the current one,
execute_recipe_tool returns the mismatch error with the merely-touched
store, for EVERY choice of transports and SQL engine (so no step runs);
and every suggest_recipes row comes from a record of the exact (api_id,
schema_hash) bucket of the query, carrying exactly that pair. -/
theorem C9_schema_guard :
    (∀ (env : RunnerEnv) (ctx : RequestContext) (s : RecipeStore) (rid : String)
        (params : Option (List (String × Val))) (ret : Bool)
        (raw_schema0 base_url0 : String) (now : ℚ) (mA mH : String) (mR : Val),
      raw_schema0 ≠ "" →
      (get_recipe_meta s rid now).1 = some (mA, mH, mR) →
      (mH ≠ env.hashFn raw_schema0 ∨
        mA ≠ build_api_id ctx ctx.api_type base_url0) →
      execute_recipe_tool env ctx s rid params ret raw_schema0 base_url0 now =
        .ok (error_json "recipe does not match current API or schema",
          (get_recipe_meta s rid now).2)) ∧
    (∀ (base extra : String → String → ℚ) (s : RecipeStore)
        (api_id schema_hash question : String) (k : Nat) (e : SuggestEntry),
      Good s →
      e ∈ suggest_recipes base extra s api_id schema_hash question k →
      ∃ rid rec, rid ∈ (pyGet s.by_key (api_id, schema_hash)).getD [] ∧
        pyGet s.records rid = some rec ∧ e.recipe_id = rec.recipe_id ∧
        rec.api_id = api_id ∧ rec.schema_hash = schema_hash) := by
  constructor
  · intro env ctx s rid params ret raw0 base0 now mA mH mR hraw hmeta hdiff
    generalize hs2 : (get_recipe_meta s rid now).2 = s2
    have hfull : get_recipe_meta s rid now = (some (mA, mH, mR), s2) := by
      rw [← hmeta, ← hs2]
    rcases hdiff with h | h <;>
      simp [execute_recipe_tool, hraw, hfull, bind, Except.bind, pure,
        Except.pure, h]
  · intro base extra s a hsh q k e hGood hmem
    simp only [suggest_recipes] at hmem
    obtain ⟨sr, hsr, he⟩ := List.mem_map.mp hmem
    have hsr1 := List.mem_of_mem_take hsr
    have hsr2 := (mem_stableSort _ _ _).mp hsr1
    obtain ⟨r, hr, hscore⟩ := List.mem_filterMap.mp hsr2
    obtain ⟨rid, hridmem, hrec⟩ := List.mem_filterMap.mp hr
    have hsr2r : sr.2 = r := by
      split at hscore
      · rw [← Option.some.inj hscore]
      · cases hscore
    have hridmem' : rid ∈ (pyGet s.by_key (a, hsh)).getD [] := hridmem
    cases hbk : pyGet s.by_key (a, hsh) with
    | none => simp [hbk] at hridmem'
    | some ids0 =>
        simp only [hbk, Option.getD] at hridmem'
        have hb : ((a, hsh), ids0) ∈ s.by_key := pyGet_mem hbk
        have hopt := hGood.2.2.2 ((a, hsh), ids0) hb rid hridmem'
        rw [hrec] at hopt
        refine ⟨rid, r, hridmem', hrec, ?_, hopt.1, hopt.2⟩
        rw [← he, hsr2r]

/-- Witness for C9: executing r1 with a drifted schema hash returns the
mismatch error against the touched store. -/
theorem C9_schema_guard_witness :
    execute_recipe_tool envC9 ctxC9 storeC9 "r1" none false "schema" "base" 5 =
      .ok (error_json "recipe does not match current API or schema",
        (get_recipe_meta storeC9 "r1" 5).2) :=
  C9_schema_guard.1 envC9 ctxC9 storeC9 "r1" none false "schema" "base" 5
    "api" "h" (Val.vdict []) (by decide) (by decide) (.inl (by decide))

theorem mem_pyPop {α β : Type} [DecidableEq α] {l : List (α × β)} {k : α}
    {kv : α × β} (h : kv ∈ (pyPop l k).2) : kv ∈ l := by
  induction l with
  | nil => simp [pyPop] at h
  | cons p rest ih =>
      obtain ⟨k0, v0⟩ := p
      by_cases h0 : k0 = k
      · simp only [pyPop, if_pos h0] at h
        exact List.mem_cons_of_mem _ h
      · simp only [pyPop, if_neg h0] at h
        rcases List.mem_cons.mp h with rfl | h'
        · exact List.mem_cons_self _ _
        · exact List.mem_cons_of_mem _ (ih h')

theorem mem_pySet_elim {α β : Type} [DecidableEq α] {l : List (α × β)} {k : α}
    {v : β} {kv : α × β} (h : kv ∈ pySet l k v) : kv ∈ l ∨ kv = (k, v) := by
  induction l with
  | nil =>
      simp only [pySet] at h
      rcases List.mem_cons.mp h with rfl | h'
      · exact .inr rfl
      · cases h'
  | cons p rest ih =>
      obtain ⟨k0, v0⟩ := p
      by_cases h0 : k0 = k
      · simp only [pySet, if_pos h0] at h
        rcases List.mem_cons.mp h with rfl | h'
        · exact .inr rfl
        · exact .inl (List.mem_cons_of_mem _ h')
      · simp only [pySet, if_neg h0] at h
        rcases List.mem_cons.mp h with rfl | h'
        · exact .inl (List.mem_cons_self _ _)
        · rcases ih h' with h'' | h''
          · exact .inl (List.mem_cons_of_mem _ h'')
          · exact .inr h''

theorem mem_pySet_map_fst {α β : Type} [DecidableEq α] (l : List (α × β)) (k : α)
    (v : β) (y : α) :
    y ∈ (pySet l k v).map Prod.fst ↔ y ∈ l.map Prod.fst ∨ y = k := by
  by_cases hmem : k ∈ l.map Prod.fst
  · rw [pySet_map_fst_mem l k v hmem]
    constructor
    · exact fun hy => .inl hy
    · rintro (hy | rfl)
      · exact hy
      · exact hmem
  · rw [pySet_map_fst_not_mem l k v hmem]
    simp

theorem pySet_length_mem {α β : Type} [DecidableEq α] (l : List (α × β)) (k : α)
    (v : β) (h : k ∈ l.map Prod.fst) : (pySet l k v).length = l.length := by
  have := congrArg List.length (pySet_map_fst_mem l k v h)
  simpa using this

theorem pySet_length_not_mem {α β : Type} [DecidableEq α] (l : List (α × β))
    (k : α) (v : β) (h : k ∉ l.map Prod.fst) :
    (pySet l k v).length = l.length + 1 := by
  have := congrArg List.length (pySet_map_fst_not_mem l k v h)
  simpa using this

theorem pyPop_length_of_mem {α β : Type} [DecidableEq α] (l : List (α × β))
    (k : α) (h : k ∈ l.map Prod.fst) :
    ((pyPop l k).2).length + 1 = l.length := by
  have h1 : ((pyPop l k).2).map Prod.fst = (l.map Prod.fst).erase k :=
    pyPop_map_fst l k
  have h2 := congrArg List.length h1
  rw [List.length_erase_of_mem h] at h2
  have h3 : 0 < (l.map Prod.fst).length :=
    List.length_pos.mpr (List.ne_nil_of_mem h)
  simp only [List.length_map] at h2 h3
  omega

theorem evictLoop_of_le (n : Nat) (s : RecipeStore)
    (h : ¬ s.records.length > s.max_size) : evictLoop n s = s := by
  cases n with
  | zero => rfl
  | succ m =>
      cases hl : s.lru with
      | nil => simp [evictLoop, hl]
      | cons o rest => simp [evictLoop, hl, h]

theorem nodup_length_eq_of_mem_iff {l1 l2 : List String} (h1 : l1.Nodup)
    (h2 : l2.Nodup) (h : ∀ x, x ∈ l1 ↔ x ∈ l2) : l1.length = l2.length := by
  rw [← List.toFinset_card_of_nodup h1, ← List.toFinset_card_of_nodup h2]
  congr 1
  ext x
  simp [h x]

theorem goodCap_lru_length {s : RecipeStore} (h : GoodCap s) :
    s.lru.length = s.records.length := by
  have := nodup_length_eq_of_mem_iff h.2.1 h.1
    (fun x => ⟨fun hx => h.2.2.1 x hx, fun hx => h.2.2.2.1 x hx⟩)
  simpa using this

theorem deleteRecord_records (s : RecipeStore) (rid : String) :
    (deleteRecord s rid).records = (pyPop s.records rid).2 := rfl

theorem deleteRecord_lru (s : RecipeStore) (rid : String) :
    (deleteRecord s rid).lru = s.lru.erase rid := rfl

theorem deleteRecord_max (s : RecipeStore) (rid : String) :
    (deleteRecord s rid).max_size = s.max_size := rfl

theorem goodCap_delete {s : RecipeStore} (h : GoodCap s) (rid : String) :
    GoodCap (deleteRecord s rid) := by
  obtain ⟨hkn, hln, hlk, hkl, hid, hmax⟩ := h
  refine ⟨?_, ?_, ?_, ?_, ?_, ?_⟩
  · rw [deleteRecord_records, pyPop_map_fst]
    exact hkn.erase rid
  · rw [deleteRecord_lru]
    exact hln.erase rid
  · intro x hx
    rw [deleteRecord_lru] at hx
    rw [deleteRecord_records, pyPop_map_fst]
    obtain ⟨hne, hmem⟩ := (hln.mem_erase_iff).mp hx
    exact (hkn.mem_erase_iff).mpr ⟨hne, hlk x hmem⟩
  · intro x hx
    rw [deleteRecord_records, pyPop_map_fst] at hx
    rw [deleteRecord_lru]
    obtain ⟨hne, hmem⟩ := (hkn.mem_erase_iff).mp hx
    exact (hln.mem_erase_iff).mpr ⟨hne, hkl x hmem⟩
  · intro kv hkv
    rw [deleteRecord_records] at hkv
    exact hid kv (mem_pyPop hkv)
  · rw [deleteRecord_max]
    exact hmax

theorem evictLoop_good : ∀ (fuel : Nat) (s : RecipeStore), GoodCap s →
    s.records.length ≤ s.max_size + fuel →
    GoodCap (evictLoop fuel s) ∧
    (evictLoop fuel s).records.length ≤ s.max_size ∧
    (evictLoop fuel s).max_size = s.max_size := by
  intro fuel
  induction fuel with
  | zero =>
      intro s hg hlen
      exact ⟨hg, by simpa using hlen, rfl⟩
  | succ m ih =>
      intro s hg hlen
      by_cases hover : s.records.length > s.max_size
      · cases hl : s.lru with
        | nil =>
            have hll := goodCap_lru_length hg
            rw [hl] at hll
            simp only [List.length_nil] at hll
            omega
        | cons oldest rest =>
            have hstep : evictLoop (m + 1) s = evictLoop m (deleteRecord s oldest) := by
              simp [evictLoop, hl, hover]
            have hg' := goodCap_delete hg oldest
            have hmem : oldest ∈ s.records.map Prod.fst :=
              hg.2.2.1 oldest (by rw [hl]; exact List.mem_cons_self _ _)
            have hlend := pyPop_length_of_mem s.records oldest hmem
            have hlen' : (deleteRecord s oldest).records.length ≤
                (deleteRecord s oldest).max_size + m := by
              rw [deleteRecord_records, deleteRecord_max]
              omega
            obtain ⟨g1, g2, g3⟩ := ih (deleteRecord s oldest) hg' hlen'
            rw [hstep]
            rw [deleteRecord_max] at g2 g3
            exact ⟨g1, g2, g3⟩
      · rw [evictLoop_of_le (m + 1) s hover]
        exact ⟨hg, by omega, rfl⟩

theorem evictIfNeeded_good {s : RecipeStore} (hg : GoodCap s) :
    GoodCap (evictIfNeeded s) ∧
    (evictIfNeeded s).records.length ≤ s.max_size ∧
    (evictIfNeeded s).max_size = s.max_size := by
  have hlen : s.records.length ≤ s.max_size + s.lru.length := by
    rw [goodCap_lru_length hg]
    omega
  exact evictLoop_good s.lru.length s hg hlen

theorem goodCap_insert_touch {s : RecipeStore} (hg : GoodCap s) (rid : String)
    (record : RecipeRecord) (bk : List ((String × String) × List String))
    (hrec : record.recipe_id = rid) :
    GoodCap { max_size := s.max_size, records := pySet s.records rid record,
              by_key := bk, lru := s.lru.erase rid ++ [rid] } := by
  obtain ⟨hkn, hln, hlk, hkl, hid, hmax⟩ := hg
  have hsub : ∀ y, y ∈ s.records.map Prod.fst →
      y ∈ (pySet s.records rid record).map Prod.fst :=
    fun y hy => (mem_pySet_map_fst s.records rid record y).mpr (.inl hy)
  have hridk : rid ∈ (pySet s.records rid record).map Prod.fst :=
    (mem_pySet_map_fst s.records rid record rid).mpr (.inr rfl)
  refine ⟨?_, ?_, ?_, ?_, ?_, hmax⟩
  · by_cases hmem : rid ∈ s.records.map Prod.fst
    · rw [pySet_map_fst_mem s.records rid record hmem]
      exact hkn
    · rw [pySet_map_fst_not_mem s.records rid record hmem]
      refine List.Nodup.append hkn (List.nodup_singleton rid) ?_
      intro x hx1 hx2
      rw [List.mem_singleton] at hx2
      subst hx2
      exact hmem hx1
  · refine List.Nodup.append (hln.erase rid) (List.nodup_singleton rid) ?_
    intro x hx1 hx2
    rw [List.mem_singleton] at hx2
    subst hx2
    exact ((hln.mem_erase_iff).mp hx1).1 rfl
  · intro x hx
    rcases List.mem_append.mp hx with hx | hx
    · exact hsub x (hlk x (List.mem_of_mem_erase hx))
    · rw [List.mem_singleton] at hx
      subst hx
      exact hridk
  · intro x hx
    rcases (mem_pySet_map_fst s.records rid record x).mp hx with hx | rfl
    · by_cases hxr : x = rid
      · subst hxr
        exact List.mem_append.mpr (.inr (List.mem_singleton.mpr rfl))
      · exact List.mem_append.mpr (.inl ((hln.mem_erase_iff).mpr ⟨hxr, hkl x hx⟩))
    · exact List.mem_append.mpr (.inr (List.mem_singleton.mpr rfl))
  · intro kv hkv
    rcases mem_pySet_elim hkv with hkv | rfl
    · exact hid kv hkv
    · exact hrec

theorem goodCap_get {s : RecipeStore} (hg : GoodCap s) (rid : String) (now : ℚ) :
    GoodCap (get_recipe s rid now).2 ∧
    (get_recipe s rid now).2.records.length = s.records.length ∧
    (get_recipe s rid now).2.max_size = s.max_size := by
  cases hq : pyGet s.records rid with
  | none =>
      simp only [get_recipe, hq]
      exact ⟨hg, trivial, trivial⟩
  | some rec =>
      have hmem : rid ∈ s.records.map Prod.fst :=
        List.mem_map_of_mem Prod.fst (pyGet_mem hq)
      have hridid : rec.recipe_id = rid := hg.2.2.2.2.1 (rid, rec) (pyGet_mem hq)
      simp only [get_recipe, hq, touchLru]
      refine ⟨?_, ?_, trivial⟩
      · exact goodCap_insert_touch hg rid { rec with last_used_at := now }
          s.by_key hridid
      · exact pySet_length_mem s.records rid _ hmem

theorem goodCap_save {s : RecipeStore} (hg : GoodCap s) (rid : String) (now : ℚ)
    (a h q : String) (r : Val) (t : String) :
    GoodCap (save_recipe s rid now a h q r t).2 ∧
    (save_recipe s rid now a h q r t).2.records.length ≤ s.max_size ∧
    (save_recipe s rid now a h q r t).2.max_size = s.max_size := by
  simp only [save_recipe, touchLru]
  have hg2 := goodCap_insert_touch hg rid
    { recipe_id := rid, api_id := a, schema_hash := h,
      question := q, question_sig := normalizeQuestion q,
      question_tokens := tokensOf q, recipe := r,
      tool_name := t, created_at := now, last_used_at := now }
    (bkAdd s.by_key (a, h) rid) rfl
  exact evictIfNeeded_good hg2

theorem goodCap_applyOp {s : RecipeStore} (hg : GoodCap s) (op : StoreOp) :
    GoodCap (applyOp s op) ∧ (applyOp s op).max_size = s.max_size ∧
    (s.records.length ≤ s.max_size →
      (applyOp s op).records.length ≤ s.max_size) := by
  cases op with
  | save rid now a h q r t =>
      obtain ⟨g1, g2, g3⟩ := goodCap_save hg rid now a h q r t
      exact ⟨g1, g3, fun _ => g2⟩
  | get rid now =>
      obtain ⟨g1, g2, g3⟩ := goodCap_get hg rid now
      refine ⟨g1, g3, fun hb => ?_⟩
      show (get_recipe s rid now).2.records.length ≤ s.max_size
      rw [g2]
      exact hb

theorem goodCap_mkStore (m : Nat) : GoodCap (mkStore m) := by
  refine ⟨?_, ?_, ?_, ?_, ?_, ?_⟩
  · exact List.nodup_nil
  · exact List.nodup_nil
  · intro x hx; cases hx
  · intro x hx; cases hx
  · intro kv hkv; cases hkv
  · exact le_max_left 1 m

theorem runOps_good : ∀ (ops : List StoreOp) (s : RecipeStore), GoodCap s →
    s.records.length ≤ s.max_size →
    GoodCap (runOps s ops) ∧ (runOps s ops).max_size = s.max_size ∧
    (runOps s ops).records.length ≤ s.max_size := by
  intro ops
  induction ops with
  | nil => intro s hg hlen; exact ⟨hg, rfl, hlen⟩
  | cons op rest ih =>
      intro s hg hlen
      obtain ⟨g1, g2, g3⟩ := goodCap_applyOp hg op
      have hstep : runOps s (op :: rest) = runOps (applyOp s op) rest := rfl
      obtain ⟨r1, r2, r3⟩ := ih (applyOp s op) g1 (by rw [g2]; exact g3 hlen)
      rw [hstep]
      exact ⟨r1, by rw [r2, g2], by rw [← g2]; exact r3⟩

theorem evict_exact {s : RecipeStore} (hg : GoodCap s) {oldest : String}
    {rest : List String} (hl : s.lru = oldest :: rest)
    (hlen : s.records.length = s.max_size + 1) :
    evictIfNeeded s = deleteRecord s oldest := by
  have hmem : oldest ∈ s.records.map Prod.fst :=
    hg.2.2.1 oldest (by rw [hl]; exact List.mem_cons_self _ _)
  have hdl := pyPop_length_of_mem s.records oldest hmem
  have hstop : ¬ (deleteRecord s oldest).records.length >
      (deleteRecord s oldest).max_size := by
    rw [deleteRecord_records, deleteRecord_max]
    omega
  have hstep : evictIfNeeded s = evictLoop (rest.length + 1) s := by
    rw [evictIfNeeded, hl, List.length_cons]
  rw [hstep]
  simp only [evictLoop, hl]
  rw [if_pos (by omega)]
  exact evictLoop_of_le rest.length _ hstop

theorem touch_prevents_eviction {s : RecipeStore} (hg : GoodCap s)
    {rid rid' : String} (tG now : ℚ) (a h q : String) (r : Val) (tn : String)
    (hmax2 : 2 ≤ s.max_size) (hlen : s.records.length ≤ s.max_size)
    (hin : pyHasKey s.records rid = true)
    (hout : pyHasKey s.records rid' = false) :
    pyHasKey ((save_recipe (get_recipe s rid tG).2 rid' now a h q r tn).2).records
      rid = true := by
  obtain ⟨rec, hqrec⟩ : ∃ rec, pyGet s.records rid = some rec := by
    cases hqq : pyGet s.records rid with
    | none => simp [pyHasKey, hqq] at hin
    | some rec => exact ⟨rec, rfl⟩
  have hmem : rid ∈ s.records.map Prod.fst :=
    List.mem_map_of_mem Prod.fst (pyGet_mem hqrec)
  have hnotmem' : rid' ∉ s.records.map Prod.fst := by
    intro hc
    have h2 := (pyGet_isSome_iff s.records rid').mpr hc
    rw [pyHasKey, h2] at hout
    cases hout
  have hne : rid ≠ rid' := by
    rintro rfl
    exact hnotmem' hmem
  set rec' : RecipeRecord := { rec with last_used_at := tG } with hrecp
  set recNew : RecipeRecord := saveRecordOf rid' now a h q r tn with hrecNew
  set s2 : RecipeStore :=
    { max_size := s.max_size,
      records := pySet (pySet s.records rid rec') rid' recNew,
      by_key := bkAdd s.by_key (a, h) rid',
      lru := (s.lru.erase rid ++ [rid]).erase rid' ++ [rid'] } with hs2
  have hsg : (get_recipe s rid tG).2 =
      { max_size := s.max_size, records := pySet s.records rid rec',
        by_key := s.by_key, lru := s.lru.erase rid ++ [rid] } := by
    simp [get_recipe, hqrec, touchLru]
  have hsgkeys : (pySet s.records rid rec').map Prod.fst =
      s.records.map Prod.fst :=
    pySet_map_fst_mem s.records rid _ hmem
  have hgsg : GoodCap (get_recipe s rid tG).2 := (goodCap_get hg rid tG).1
  have hsave : (save_recipe (get_recipe s rid tG).2 rid' now a h q r tn).2 =
      evictIfNeeded s2 := by
    rw [hsg]
    rfl
  have hnotlru : rid' ∉ s.lru := fun hc => hnotmem' (hg.2.2.1 rid' hc)
  have hnoerase : (s.lru.erase rid ++ [rid]).erase rid' =
      s.lru.erase rid ++ [rid] := by
    apply List.erase_of_not_mem
    intro hc
    rcases List.mem_append.mp hc with hc | hc
    · exact hnotlru (List.mem_of_mem_erase hc)
    · rw [List.mem_singleton] at hc
      exact hne hc.symm
  have hlen2 : s2.records.length = s.records.length + 1 := by
    rw [hs2]
    show (pySet (pySet s.records rid rec') rid' recNew).length =
      s.records.length + 1
    rw [pySet_length_not_mem _ _ _ (by rw [hsgkeys]; exact hnotmem'),
      pySet_length_mem _ _ _ hmem]
  have hg2 : GoodCap s2 := by
    have hthis := goodCap_insert_touch hgsg rid' recNew
      (bkAdd s.by_key (a, h) rid') rfl
    rw [hsg] at hthis
    exact hthis
  have hgetrid : pyGet s2.records rid = some rec' := by
    show pyGet (pySet (pySet s.records rid rec') rid' recNew) rid = some rec'
    rw [pyGet_pySet_ne _ _ _ _ hne, pyGet_pySet_self]
  rw [hsave]
  rcases Nat.lt_or_ge s.records.length s.max_size with hlt | hge
  · have hstop : ¬ s2.records.length > s2.max_size := by
      rw [hlen2]
      show ¬ s.records.length + 1 > s.max_size
      omega
    rw [evictIfNeeded, evictLoop_of_le _ _ hstop]
    simp [pyHasKey, hgetrid]
  · have hexact : s.records.length = s.max_size := le_antisymm hlen hge
    have hlru : s.lru.length = s.records.length := goodCap_lru_length hg
    have hridlru : rid ∈ s.lru := hg.2.2.2.1 rid hmem
    have herlen : (s.lru.erase rid).length = s.lru.length - 1 :=
      List.length_erase_of_mem hridlru
    cases herase : s.lru.erase rid with
    | nil =>
        rw [herase] at herlen
        simp only [List.length_nil] at herlen
        omega
    | cons oldest rest2 =>
        have holdne : oldest ≠ rid := by
          have hmo : oldest ∈ s.lru.erase rid := by
            rw [herase]
            exact List.mem_cons_self _ _
          exact ((hg.2.1.mem_erase_iff).mp hmo).1
        have hl2 : s2.lru = oldest :: (rest2 ++ [rid] ++ [rid']) := by
          show ((s.lru.erase rid ++ [rid]).erase rid' ++ [rid'] :
            List String) = _
          rw [hnoerase, herase]
          simp
        have hover : s2.records.length = s2.max_size + 1 := by
          rw [hlen2]
          show s.records.length + 1 = s.max_size + 1
          omega
        rw [evict_exact hg2 hl2 hover]
        rw [pyHasKey, deleteRecord_records]
        rw [pyGet_pyPop_ne _ _ _ (fun he => holdne he.symm)]
        simp [pyHasKey] at hgetrid ⊢
        simp [hgetrid]

/-- C3 (amended): the store's record count never exceeds the clamped
capacity max 1 max_size across any save/get sequence; the bookkeeping
invariant is preserved by every operation; an overflowing save evicts
exactly the least-recently-touched record (the LRU head), leaving exactly
capacity records; and a get-touch before an overflowing save prevents the
touched record's eviction PROVIDED the capacity is at least 2 — at
capacity 1 the arriving record always displaces the touched one.  The
concrete capacity-2 scenarios: three distinct saves keep r2 and r3; with a
touch of r1 before the third save, r1 survives and r2 is evicted. -/
theorem C3_lru_store :
    (∀ m : Nat, GoodCap (mkStore m) ∧ (mkStore m).records.length = 0 ∧
      (mkStore m).max_size = max 1 m) ∧
    (∀ (s : RecipeStore) (op : StoreOp), GoodCap s →
      GoodCap (applyOp s op) ∧ (applyOp s op).max_size = s.max_size ∧
      (s.records.length ≤ s.max_size →
        (applyOp s op).records.length ≤ s.max_size)) ∧
    (∀ (m : Nat) (ops : List StoreOp),
      (runOps (mkStore m) ops).records.length ≤ max 1 m) ∧
    (∀ (s : RecipeStore) (oldest : String) (rest : List String),
      GoodCap s → s.lru = oldest :: rest →
      s.records.length = s.max_size + 1 →
      evictIfNeeded s = deleteRecord s oldest ∧
      (deleteRecord s oldest).records.map Prod.fst =
        (s.records.map Prod.fst).erase oldest ∧
      (deleteRecord s oldest).records.length = s.max_size) ∧
    (∀ (s : RecipeStore) (rid rid' : String) (tG now : ℚ) (a h q : String)
        (r : Val) (tn : String),
      GoodCap s → 2 ≤ s.max_size → s.records.length ≤ s.max_size →
      pyHasKey s.records rid = true → pyHasKey s.records rid' = false →
      pyHasKey ((save_recipe (get_recipe s rid tG).2 rid' now a h q r
        tn).2).records rid = true) ∧
    cap2NoTouch.records.map Prod.fst = ["r2", "r3"] ∧
    cap2AfterSaves.records.map Prod.fst = ["r1", "r3"] ∧
    cap2AfterSaves.lru = ["r1", "r3"] := by
  refine ⟨?_, ?_, ?_, ?_, ?_, by decide, by decide, by decide⟩
  · intro m
    exact ⟨goodCap_mkStore m, rfl, rfl⟩
  · intro s op hg
    exact goodCap_applyOp hg op
  · intro m ops
    have h0 := runOps_good ops (mkStore m) (goodCap_mkStore m)
      (Nat.zero_le _)
    exact h0.2.2
  · intro s oldest rest hg hl hlen
    have hmem : oldest ∈ s.records.map Prod.fst :=
      hg.2.2.1 oldest (by rw [hl]; exact List.mem_cons_self _ _)
    have hdl := pyPop_length_of_mem s.records oldest hmem
    refine ⟨evict_exact hg hl hlen, ?_, ?_⟩
    · rw [deleteRecord_records, pyPop_map_fst]
    · rw [deleteRecord_records]
      omega
  · intro s rid rid' tG now a h q r tn hg hm hl hi ho
    exact touch_prevents_eviction hg tG now a h q r tn hm hl hi ho

/-- C3: counterexample.  At capacity 1, touching r1 via get_recipe right
before saving r2 does NOT prevent r1's eviction: the arriving record
overflows the store and the touched r1 is still the least-recent other
record, so it is evicted. -/
theorem C3_lru_touch_counterexample :
    cap1AfterSaves.records.map Prod.fst = ["r2"] ∧
    cap1AfterSaves.lru = ["r2"] ∧
    pyGet cap1AfterSaves.records "r1" = none := by
  refine ⟨by decide, by decide, by decide⟩

/-- Witness for C3: at capacity 2, touching r1 before saving r3 keeps r1. -/
theorem C3_lru_store_witness :
    pyHasKey ((save_recipe (get_recipe cap2TwoSaves "r1" 3).2 "r3" 4 "api" "h"
      "q three" (Val.vdict []) "t3").2).records "r1" = true :=
  C3_lru_store.2.2.2.2.1 cap2TwoSaves "r1" "r3" 3 4 "api" "h" "q three"
    (Val.vdict []) "t3" (by simp only [GoodCap]; decide) (by decide) (by decide)
    (by decide) (by decide)

end ApiAgent
